import Mathlib

/-!
Verification of the alert ingestion, deduplication, classification and
notification pipeline of the distribuidora-lucas repository.

The definitions below are shallow embeddings of the Python source:

* `app/powerbi_handler/services.py` — `PowerBIAlertService` (id-field
  detection, record-id derivation, formatting fallback, Telegram dispatch,
  run logging) and `OpenAIFormatterService` (fallback formatter).
* `app/imap_handler/services.py` — `IMAPEmailHandler` (per-email dedup,
  rule application, run logging) and `IMAPService.get_email_priority`.
* `app/imap_handler/models.py` — `EmailProcessingRule.evaluate`.
* `app/telegram_bot/services.py` — `TelegramNotificationService` and
  `TelegramRegistrationService.register_chat_with_code`.
* `app/telegram_bot/models.py` — `TelegramRegistrationCode`.

External collaborators (HTTP, IMAP sockets, the OpenAI and Telegram APIs,
the database clock) are modelled as explicit parameters or oracle
functions; everything else follows the Python control flow line by line.
-/

/-! ## Python string primitives used by the source

All primitives are implemented structurally over `List Char` so that they
evaluate by kernel reduction (Python strings are sequences of code
points, matching `List Char`). -/

/-- Does the character list start with the given prefix list? -/
def charsStartWith : List Char → List Char → Bool
  | _, [] => true
  | [], _ :: _ => false
  | a :: as, b :: bs => a = b && charsStartWith as bs

/-- Python `sub in s` over character lists. -/
def charsContain : List Char → List Char → Bool
  | l, sub =>
    if charsStartWith l sub then true
    else
      match l with
      | [] => false
      | _ :: t => charsContain t sub

/-- Python `sub in s` (substring containment test). -/
def pyContains (s sub : String) : Bool :=
  charsContain s.data sub.data

/-- Python `s.lower()` (per-character lowercasing). -/
def pyLower (s : String) : String :=
  String.mk (s.data.map Char.toLower)

/-- Python `s.upper()` (per-character uppercasing). -/
def pyUpper (s : String) : String :=
  String.mk (s.data.map Char.toUpper)

/-- Python `s.strip(chars)`: remove leading and trailing characters
belonging to `chars` from both ends. -/
def pyStrip (chars : List Char) (s : String) : String :=
  String.mk (((s.data.dropWhile (chars.contains ·)).reverse.dropWhile
    (chars.contains ·)).reverse)

/-- Python `s.strip()` (whitespace on both ends). -/
def pyStripWs (s : String) : String :=
  String.mk (((s.data.dropWhile Char.isWhitespace).reverse.dropWhile
    Char.isWhitespace).reverse)

/-- Python `s.endswith(suffix)` over character lists. -/
def pyEndsWith (s suffix : String) : Bool :=
  charsStartWith s.data.reverse suffix.data.reverse

/-- Code-point lexicographic `<` on character lists (Python string `<`). -/
def charsLt : List Char → List Char → Bool
  | [], [] => false
  | [], _ :: _ => true
  | _ :: _, [] => false
  | a :: as, b :: bs =>
    if a.toNat < b.toNat then true
    else if b.toNat < a.toNat then false
    else charsLt as bs

/-- Python string `<`. -/
def pyStrLt (a b : String) : Bool :=
  charsLt a.data b.data

/-- Stable insertion of an element into a list: it lands after every
element it is not strictly below (Python `sorted` is stable). -/
def insertOrdered (lt : α → α → Bool) : List α → α → List α
  | [], a => [a]
  | b :: bs, a => if lt a b then a :: b :: bs else b :: insertOrdered lt bs a

/-- Stable sort by the strict order `lt` (Python `sorted(l, key=...)`). -/
def pySorted (lt : α → α → Bool) (l : List α) : List α :=
  l.foldl (insertOrdered lt) []

/-! ## Power BI row values

A Power BI `executeQueries` row is a JSON object; its values are strings,
numbers, booleans or null.  `pyTruthy` is Python truthiness, `pyStr` is
Python `str(...)`, `pyRepr` is Python `repr(...)` (used by
`str(sorted(row.items()))`). -/

inductive PBValue where
  | vStr (s : String)
  | vInt (n : Int)
  | vBool (b : Bool)
  | vNull
deriving DecidableEq, Repr

def PBValue.pyTruthy : PBValue → Bool
  | .vStr s => s ≠ ""
  | .vInt n => n ≠ 0
  | .vBool b => b
  | .vNull => false

def PBValue.pyStr : PBValue → String
  | .vStr s => s
  | .vInt n => toString n
  | .vBool true => "True"
  | .vBool false => "False"
  | .vNull => "None"

def PBValue.pyRepr : PBValue → String
  | .vStr s => "'" ++ s ++ "'"
  | .vInt n => toString n
  | .vBool true => "True"
  | .vBool false => "False"
  | .vNull => "None"

/-- A Power BI row: an insertion-ordered mapping from column names to
values (Python `dict` preserves insertion order; keys are unique). -/
abbrev PBRow := List (String × PBValue)

/-- Python `key in row` / `row[key]` for a dict modelled as an
association list. -/
def rowGet (row : PBRow) (key : String) : Option PBValue :=
  (row.find? (fun kv => kv.1 = key)).map Prod.snd

/-! ## MD5 (`hashlib.md5(content.encode()).hexdigest()`)

The source derives fallback record ids through `hashlib.md5`; the
complete algorithm is embedded here over `Nat` with explicit `% 2^32`
reductions. -/

def md5K : List Nat :=
  [0xd76aa478, 0xe8c7b756, 0x242070db, 0xc1bdceee,
   0xf57c0faf, 0x4787c62a, 0xa8304613, 0xfd469501,
   0x698098d8, 0x8b44f7af, 0xffff5bb1, 0x895cd7be,
   0x6b901122, 0xfd987193, 0xa679438e, 0x49b40821,
   0xf61e2562, 0xc040b340, 0x265e5a51, 0xe9b6c7aa,
   0xd62f105d, 0x02441453, 0xd8a1e681, 0xe7d3fbc8,
   0x21e1cde6, 0xc33707d6, 0xf4d50d87, 0x455a14ed,
   0xa9e3e905, 0xfcefa3f8, 0x676f02d9, 0x8d2a4c8a,
   0xfffa3942, 0x8771f681, 0x6d9d6122, 0xfde5380c,
   0xa4beea44, 0x4bdecfa9, 0xf6bb4b60, 0xbebfbc70,
   0x289b7ec6, 0xeaa127fa, 0xd4ef3085, 0x04881d05,
   0xd9d4d039, 0xe6db99e5, 0x1fa27cf8, 0xc4ac5665,
   0xf4292244, 0x432aff97, 0xab9423a7, 0xfc93a039,
   0x655b59c3, 0x8f0ccc92, 0xffeff47d, 0x85845dd1,
   0x6fa87e4f, 0xfe2ce6e0, 0xa3014314, 0x4e0811a1,
   0xf7537e82, 0xbd3af235, 0x2ad7d2bb, 0xeb86d391]

def md5S : List Nat :=
  [7, 12, 17, 22, 7, 12, 17, 22, 7, 12, 17, 22, 7, 12, 17, 22,
   5, 9, 14, 20, 5, 9, 14, 20, 5, 9, 14, 20, 5, 9, 14, 20,
   4, 11, 16, 23, 4, 11, 16, 23, 4, 11, 16, 23, 4, 11, 16, 23,
   6, 10, 15, 21, 6, 10, 15, 21, 6, 10, 15, 21, 6, 10, 15, 21]

def md5Rotl (x c : Nat) : Nat :=
  ((x % 4294967296) * 2 ^ c + (x % 4294967296) / 2 ^ (32 - c)) % 4294967296

def md5Word (chunk : List Nat) (g : Nat) : Nat :=
  chunk.getD (4 * g) 0 + chunk.getD (4 * g + 1) 0 * 256 +
    chunk.getD (4 * g + 2) 0 * 65536 + chunk.getD (4 * g + 3) 0 * 16777216

def md5Step (chunk : List Nat) (st : Nat × Nat × Nat × Nat) (i : Nat) :
    Nat × Nat × Nat × Nat :=
  let a := st.1
  let b := st.2.1
  let c := st.2.2.1
  let d := st.2.2.2
  let mask := 4294967295
  let fg : Nat × Nat :=
    if i < 16 then ((b &&& c) ||| ((b ^^^ mask) &&& d), i)
    else if i < 32 then ((d &&& b) ||| ((d ^^^ mask) &&& c), (5 * i + 1) % 16)
    else if i < 48 then (b ^^^ c ^^^ d, (3 * i + 5) % 16)
    else (c ^^^ (b ||| (d ^^^ mask)), (7 * i) % 16)
  let f2 := (fg.1 + a + md5K.getD i 0 + md5Word chunk fg.2) % 4294967296
  (d, (b + md5Rotl f2 (md5S.getD i 0)) % 4294967296, b, c)

def md5ProcessChunk (st : Nat × Nat × Nat × Nat) (chunk : List Nat) :
    Nat × Nat × Nat × Nat :=
  let r := (List.range 64).foldl (md5Step chunk) st
  ((st.1 + r.1) % 4294967296, (st.2.1 + r.2.1) % 4294967296,
   (st.2.2.1 + r.2.2.1) % 4294967296, (st.2.2.2 + r.2.2.2) % 4294967296)

def md5Chunks (l : List Nat) : List (List Nat) :=
  if h : l = [] then []
  else l.take 64 :: md5Chunks (l.drop 64)
termination_by l.length
decreasing_by
  simp only [List.length_drop]
  exact Nat.sub_lt (List.length_pos.mpr h) (by norm_num)

def md5Pad (msg : List Nat) : List Nat :=
  msg ++ [128] ++ List.replicate ((120 - (msg.length + 1) % 64) % 64) 0 ++
    (List.range 8).map (fun i => 8 * msg.length / 2 ^ (8 * i) % 256)

def md5HexDigitChar (n : Nat) : Char :=
  if n < 10 then Char.ofNat (48 + n) else Char.ofNat (87 + n)

def md5ByteToHex (b : Nat) : String :=
  String.mk [md5HexDigitChar (b / 16 % 16), md5HexDigitChar (b % 16)]

def md5WordLEBytes (w : Nat) : List Nat :=
  [w % 256, w / 256 % 256, w / 65536 % 256, w / 16777216 % 256]

def md5hex (s : String) : String :=
  let msg := s.toUTF8.toList.map (fun b => b.toNat)
  let r := (md5Chunks (md5Pad msg)).foldl md5ProcessChunk
    (1732584193, 4023233417, 2562383102, 271733878)
  String.join ((md5WordLEBytes r.1 ++ md5WordLEBytes r.2.1 ++
    md5WordLEBytes r.2.2.1 ++ md5WordLEBytes r.2.2.2).map md5ByteToHex)

/-! ## `PowerBIAlertService._detect_id_field` and `._get_record_id`
(`app/powerbi_handler/services.py`, lines 728–779). -/

/-- `PowerBIAlertService._detect_id_field`: scan the row's column names,
preferring an exact (lowercased, bracket-stripped) `id`, then a
bracket-stripped name ending in `_id` or `id_`, then any name containing
`id`, else the first column. -/
def detect_id_field (row : PBRow) : Option String :=
  if row = [] then none
  else
    let keys := row.map Prod.fst
    match keys.find? (fun k => pyStrip ['[', ']'] (pyLower k) = "id") with
    | some k => some k
    | none =>
      match keys.find? (fun k =>
          pyEndsWith (pyStrip ['[', ']'] (pyLower k)) "_id" ||
          pyEndsWith (pyStrip ['[', ']'] (pyLower k)) "id_") with
      | some k => some k
      | none =>
        match keys.find? (fun k => pyContains (pyLower k) "id") with
        | some k => some k
        | none => keys.head?

/-- `str(sorted(row.items()))`: Python sorts the `(key, value)` pairs
(keys are unique, so ordering is by key) and renders the list with
`repr`. -/
def sortedItemsStr (row : PBRow) : String :=
  let sorted := pySorted (fun p q => pyStrLt p.1 q.1) row
  "[" ++ String.intercalate ", "
    (sorted.map (fun kv => "(" ++ ("'" ++ kv.1 ++ "'") ++ ", " ++
      kv.2.pyRepr ++ ")")) ++ "]"

/-- `PowerBIAlertService._get_record_id`: the stringified value of the
detected id field when present and truthy, else
`hashlib.md5(str(sorted(row.items())).encode()).hexdigest()`. -/
def get_record_id (row : PBRow) (id_field : Option String) : String :=
  match id_field with
  | some f =>
    if f = "" then md5hex (sortedItemsStr row)
    else
      match rowGet row f with
      | some v => if v.pyTruthy then v.pyStr else md5hex (sortedItemsStr row)
      | none => md5hex (sortedItemsStr row)
  | none => md5hex (sortedItemsStr row)

/-! ## `IMAPService.get_email_priority`
(`app/imap_handler/services.py`, lines 729–753).

The three keyword tiers come from Django settings
(`HIGH_PRIORITY_KEYWORDS` etc.); they are configuration and appear here
as parameters. -/

/-- The `for keyword in ...: if keyword.lower() in text: return ...`
loop of `get_email_priority`, one tier at a time. -/
def keywordHit (keywords : List String) (text : String) : Bool :=
  match keywords with
  | [] => false
  | k :: rest => if pyContains text (pyLower k) then true else keywordHit rest text

/-- `IMAPService.get_email_priority`: scan the high tier, then medium,
then low, against the lowercased `"{subject} {from_email} {content}"`;
default `"medium"`. -/
def get_email_priority (hi med low : List String)
    (subject from_email content : String) : String :=
  let text_to_analyze := pyLower (subject ++ " " ++ from_email ++ " " ++ content)
  if keywordHit hi text_to_analyze then "high"
  else if keywordHit med text_to_analyze then "medium"
  else if keywordHit low text_to_analyze then "low"
  else "medium"

/-! ## `EmailProcessingRule` (`app/imap_handler/models.py`, lines 105–219)
and `IMAPEmailHandler._apply_processing_rules`
(`app/imap_handler/services.py`, lines 404–453). -/

/-- `EmailProcessingRule.CRITERIA_CHOICES`. -/
inductive CriteriaType where
  | subject_contains
  | sender_contains
  | body_contains
  | subject_regex
  | sender_regex
deriving DecidableEq, Repr

/-- The fields of `EmailProcessingRule` the pipeline reads. -/
structure EmailProcessingRule where
  name : String
  criteria_type : CriteriaType
  criteria_value : String
  priority : String
  assign_to_role : Option String
  is_active : Bool
  order : Int
deriving DecidableEq, Repr

/-- The parsed email fields handed to the rules
(`subject`, `sender`, `body` of `email_data`). -/
structure EmailData where
  subject : String
  sender : String
  body : String
deriving DecidableEq, Repr

/-- A `re.search(pattern, text, re.IGNORECASE)` oracle: `.error msg`
models the call raising (e.g. `re.error` on an invalid pattern), `.ok b`
models `bool(re.search(...)) = b`.  The Python regex engine is an
external collaborator. -/
def ReSearch := String → String → Except String Bool

/-- `EmailProcessingRule.evaluate`: dispatch on the criteria type; the
whole dispatch is wrapped in `try: ... except Exception: return False`. -/
def EmailProcessingRule.evaluate (reSearch : ReSearch)
    (rule : EmailProcessingRule) (email : EmailData) : Bool :=
  let run : Except String Bool :=
    match rule.criteria_type with
    | .subject_contains => .ok (pyContains (pyLower email.subject) (pyLower rule.criteria_value))
    | .sender_contains => .ok (pyContains (pyLower email.sender) (pyLower rule.criteria_value))
    | .body_contains => .ok (pyContains (pyLower email.body) (pyLower rule.criteria_value))
    | .subject_regex => reSearch rule.criteria_value email.subject
    | .sender_regex => reSearch rule.criteria_value email.sender
  match run with
  | .ok b => b
  | .error _ => false

/-- Strict `(order, name)` comparison used by
`.order_by("order", "name")`. -/
def ruleOrderLt (r q : EmailProcessingRule) : Bool :=
  if r.order = q.order then pyStrLt r.name q.name else decide (r.order < q.order)

/-- `IMAPEmailHandler._apply_processing_rules`: default priority from the
keyword classifier, then the active rules in ascending `(order, name)`;
the first matching rule overrides the priority and (when set) supplies
the role to assign; iteration stops at the first match. -/
def apply_processing_rules (reSearch : ReSearch) (hi med low : List String)
    (rules : List EmailProcessingRule) (email : EmailData) :
    String × Option String :=
  let priority := get_email_priority hi med low email.subject email.sender email.body
  let ordered := pySorted ruleOrderLt (rules.filter (·.is_active))
  match ordered.find? (fun r => r.evaluate reSearch email) with
  | some r => (r.priority, r.assign_to_role)
  | none => (priority, none)

/-! ## Formatters
(`OpenAIFormatterService._fallback_format`, lines 166–191, and
`PowerBIAlertService._basic_format`, lines 705–726, of
`app/powerbi_handler/services.py`). -/

/-- `str_value[:100] + "..."` truncation applied to every rendered
value. -/
def truncateValue (s : String) : String :=
  if s.length > 100 then String.mk (s.data.take 100) ++ "..." else s

/-- One `"<b>{key}:</b> {str_value}"` line of the field-by-value
listing. -/
def fieldLine (kv : String × PBValue) : String :=
  "<b>" ++ kv.1 ++ ":</b> " ++ truncateValue kv.2.pyStr

/-- The `{"critical": "🚨", ...}.get(priority, "📊")` emoji lookup. -/
def priorityEmoji (priority : String) : String :=
  if priority = "critical" then "🚨"
  else if priority = "high" then "🔴"
  else if priority = "medium" then "🟡"
  else if priority = "low" then "🟢"
  else "📊"

/-- The `context` dict of the OpenAI formatter; `none` models an absent
key. -/
structure FormatContext where
  priority : Option String
  alert_name : Option String
  company_name : Option String
deriving Repr

/-- `OpenAIFormatterService._fallback_format`: priority emoji + bold
alert name, optional company line, then the field-by-value listing,
joined with newlines. -/
def fallback_format (raw_data : PBRow) (context : FormatContext) : String :=
  let priority := context.priority.getD "medium"
  let emoji := priorityEmoji priority
  let alert_name := context.alert_name.getD "Alerta Power BI"
  let companyLines :=
    match context.company_name with
    | some c => if c ≠ "" then ["<b>Empresa:</b> " ++ c] else []
    | none => []
  String.intercalate "\n"
    ([emoji ++ " <b>" ++ alert_name ++ "</b>", ""] ++ companyLines ++
      raw_data.map fieldLine)

/-- The outcome of the OpenAI chat-completion HTTP call (an external
collaborator): a 200 response with the completion text, a non-200
response, `requests.Timeout`, or any other exception. -/
inductive OpenAIOutcome where
  | ok (content : String)
  | httpError (status : Nat) (text : String)
  | timeout
  | exc (msg : String)
deriving DecidableEq, Repr

/-- `OpenAIFormatterService.format_alert`: return the stripped completion
on success, `_fallback_format` on HTTP error, timeout, or any exception. -/
def format_alert (outcome : OpenAIOutcome) (raw_data : PBRow)
    (context : FormatContext) : String :=
  match outcome with
  | .ok content => pyStripWs content
  | .httpError _ _ => fallback_format raw_data context
  | .timeout => fallback_format raw_data context
  | .exc _ => fallback_format raw_data context

/-- `PowerBIAlertService._basic_format`: priority emoji + bold definition
name, company line, blank line, field-by-value listing. -/
def basic_format (definitionName companyName defaultPriority : String)
    (row : PBRow) : String :=
  String.intercalate "\n"
    ([priorityEmoji defaultPriority ++ " <b>" ++ definitionName ++ "</b>",
      "<b>Empresa:</b> " ++ companyName, ""] ++ row.map fieldLine)

/-- `PowerBIAlertService._format_with_openai`: `none` for the OpenAI
service models `self.openai_service is None` (not configured); with no
service the basic formatter runs regardless of the template, otherwise
`format_alert` runs with the alert's context. -/
def format_with_openai (openaiService : Option OpenAIOutcome)
    (definitionName companyName defaultPriority : String) (row : PBRow) :
    String :=
  match openaiService with
  | none => basic_format definitionName companyName defaultPriority row
  | some outcome =>
    format_alert outcome row
      ⟨some defaultPriority, some definitionName, some companyName⟩

/-! ## Telegram dispatch
(`PowerBIAlertService._send_to_telegram`, lines 781–854 of
`app/powerbi_handler/services.py`, together with
`TelegramNotificationService._send_message_to_chat`, lines 216–285 of
`app/telegram_bot/services.py`). -/

/-- A configured Telegram chat as `_send_to_telegram` sees it. -/
structure TelegramChatRec where
  chat_id : Int
  name : String
  is_active : Bool
deriving DecidableEq, Repr

/-- The outcome of one `_send_message_to_chat` call (the Telegram HTTP
API is an external collaborator): the call returned `True`, returned
`False`, or raised. -/
inductive SendOutcome where
  | ok
  | returnedFalse
  | raised (msg : String)
deriving DecidableEq, Repr

/-- The per-destination notification-log entry
(`TelegramMessage`) produced by `_send_message_to_chat`: its final
status and error message. -/
def chatMessageLog (o : SendOutcome) : String × String :=
  match o with
  | .ok => ("sent", "")
  | .returnedFalse => ("failed", "Error enviando mensaje (sin detalles)")
  | .raised m => ("failed", m)

/-- The observable result of `_send_to_telegram`: the owning
`PowerBIAlertInstance`'s final status and error message, the boolean the
method returns, and the per-destination notification-log entries. -/
structure DispatchResult where
  status : String
  error_message : String
  returned : Bool
  chatLogs : List (String × String)
deriving DecidableEq, Repr

/-- The state accumulated by the `for chat in chats:` loop of
`_send_to_telegram`: `success_count` and the collected exception
strings. -/
def dispatchLoop (outcome : TelegramChatRec → SendOutcome)
    (chats : List TelegramChatRec) : Nat × List String :=
  chats.foldl
    (fun acc chat =>
      match outcome chat with
      | .ok => (acc.1 + 1, acc.2)
      | .returnedFalse => acc
      | .raised m =>
        (acc.1, acc.2 ++ ["Chat " ++ toString chat.chat_id ++ ": " ++ m]))
    (0, [])

/-- `PowerBIAlertService._send_to_telegram`: filter the definition's
chats by `is_active`; with none, mark the instance `ignored`; otherwise
send to every chat, mark `sent` if at least one send succeeded, else
`failed` with `"; ".join(errors)` when exceptions were collected or the
fixed `"No se pudo enviar"` otherwise. -/
def send_to_telegram (chats : List TelegramChatRec)
    (outcome : TelegramChatRec → SendOutcome) : DispatchResult :=
  let active := chats.filter (·.is_active)
  if active = [] then
    { status := "ignored", error_message := "No hay chats configurados",
      returned := false, chatLogs := [] }
  else
    let loop := dispatchLoop outcome active
    let logs := active.map (fun c => chatMessageLog (outcome c))
    if loop.1 > 0 then
      { status := "sent", error_message := "", returned := true,
        chatLogs := logs }
    else
      { status := "failed",
        error_message :=
          if loop.2 ≠ [] then String.intercalate "; " loop.2
          else "No se pudo enviar",
        returned := false, chatLogs := logs }

/-- A Telegram chat as `TelegramNotificationService.send_email_alert`
filters it (`company=target_company, is_active=True,
email_alerts=True`). -/
structure TgEmailChat where
  chat_id : Int
  name : String
  is_active : Bool
  email_alerts : Bool
deriving DecidableEq, Repr

/-- The observable outcome of
`TelegramNotificationService.send_email_alert` on the owning
`ReceivedEmail`: the boolean the method returns, and the email's status
and error detail after the call. -/
structure EmailDispatchOutcome where
  returned : Bool
  status : String
  error_message : String
deriving DecidableEq, Repr

/-- `TelegramNotificationService.send_email_alert` (mailbox dispatch,
lines 66–150 of `app/telegram_bot/services.py`): without a target
company return `False`; inside the `try`, with no active email-subscribed
chat of the company log a warning and return `False`; otherwise send to
every chat via `_send_message_to_chat` (which returns a boolean and never
propagates), call `email.mark_as_sent()` and return `True` when at least
one send succeeded, else return `False` — the email's status is written
only on success, and `email.mark_as_failed("Error: " ++ msg)` runs only
when the `try` block itself raises (`exc`).  `email_status` and
`email_error` are the email's fields before the call. -/
def send_email_alert (hasCompany : Bool) (exc : Option String)
    (email_status email_error : String) (chats : List TgEmailChat)
    (outcome : TgEmailChat → SendOutcome) : EmailDispatchOutcome :=
  if !hasCompany then
    { returned := false, status := email_status, error_message := email_error }
  else
    match exc with
    | some m =>
      { returned := false, status := "failed",
        error_message := "Error: " ++ m }
    | none =>
      let chats2 := chats.filter (fun c => c.is_active && c.email_alerts)
      if chats2 = [] then
        { returned := false, status := email_status,
          error_message := email_error }
      else
        if 0 < (chats2.filter (fun c => outcome c == SendOutcome.ok)).length
        then
          { returned := true, status := "sent",
            error_message := email_error }
        else
          { returned := false, status := email_status,
            error_message := email_error }

/-! ## Identity & dedup state machines

`IMAPEmailHandler._process_single_email` (lines 349–402 of
`app/imap_handler/services.py`) filters by the
`(sender, subject, received_date)` triple against the persisted
`ReceivedEmail` rows; `PowerBIAlertService._process_alert_definition`
(lines 511–624 of `app/powerbi_handler/services.py`) filters by
`powerbi_record_id` against a snapshot of the definition's
`PowerBIAlertInstance` ids, with the
`unique_together = [["alert_definition", "powerbi_record_id"]]`
constraint of `PowerBIAlertInstance.Meta` making a duplicate
`objects.create` raise (caught per record, counted as failed, no
dispatch). -/

/-- Persisted metric-query pipeline state for one alert definition: the
`powerbi_record_id`s of its stored `PowerBIAlertInstance`s and of the
Telegram dispatches performed so far. -/
structure PBIState where
  instanceIds : List String
  dispatched : List String
deriving DecidableEq, Repr

/-- One iteration of the `for row in rows:` loop of
`_process_alert_definition`: skip on empty record id, skip when the id
is in the `existing_ids` snapshot, fail (unique constraint, no
dispatch) when the id was already inserted by this batch, otherwise
create the instance and dispatch. -/
def pbi_row_step (id_field : Option String) (existing : List String)
    (acc : PBIState) (row : PBRow) : PBIState :=
  let record_id := get_record_id row id_field
  if record_id = "" then acc
  else if existing.contains record_id then acc
  else if acc.instanceIds.contains record_id then acc
  else { instanceIds := acc.instanceIds ++ [record_id],
         dispatched := acc.dispatched ++ [record_id] }

/-- A registered chat (`TelegramChat`) as the registration service reads
and creates it. -/
structure TgChat where
  chat_id : Int
  company : String
  name : String
deriving DecidableEq, Repr

/-- A `TelegramRegistrationCode` row. -/
structure RegCode where
  code : String
  company : String
  assigned_to_user_email : Option String
  expires_at : Option Nat
  is_used : Bool
  used_by_chat : Option TgChat
deriving DecidableEq, Repr

/-- `TelegramRegistrationCode.is_expired`: `False` with no expiry set,
else `timezone.now() > expires_at`. -/
def RegCode.is_expired (c : RegCode) (now : Nat) : Bool :=
  match c.expires_at with
  | none => false
  | some t => now > t

/-- A tenant user row, as touched by the pending-user propagation. -/
structure TgUser where
  email : String
  company : String
  telegram_chat_id : Option String
deriving DecidableEq, Repr

/-- The persistent state the registration service reads and writes,
plus the database clock. -/
structure RegState where
  codes : List RegCode
  chats : List TgChat
  users : List TgUser
  activeBot : Bool
  now : Nat
deriving DecidableEq, Repr

/-- The `chat_data` dict built from the inbound Telegram update. -/
structure ChatData where
  chat_id : Int
  chat_type : String
  username : String
  title : String
deriving DecidableEq, Repr

/-- The dict returned by `register_chat_with_code`. -/
structure RegResult where
  success : Bool
  message : String
  error_code : Option String
deriving DecidableEq, Repr

/-- `.filter(...).first()`-style update of the first matching row only
(Django `user.save()` after `filter(...).first()`). -/
def updateFirst (p : α → Bool) (f : α → α) : List α → List α
  | [] => []
  | a :: as => if p a then f a :: as else a :: updateFirst p f as

/-- `TelegramRegistrationCode.mark_as_used`. -/
def markCodeUsed (chat : TgChat) (c : RegCode) : RegCode :=
  { c with is_used := true, used_by_chat := some chat }

/-- `TelegramRegistrationService.register_chat_with_code`: normalize the
code, look it up, reject in order when not found / already used /
expired / chat already bound to the same company / chat bound to another
company / no active bot; on success create the `TelegramChat`, mark the
code used and linked to it, and propagate the chat id onto the assigned
pending user (first match), returning the result dict and the new
state. -/
def register_chat_with_code (st : RegState) (code_str : String)
    (cd : ChatData) : RegResult × RegState :=
  let code_norm := pyUpper (pyStripWs code_str)
  match st.codes.find? (fun c => c.code = code_norm) with
  | none =>
    (⟨false, "❌ Código inválido: " ++ code_norm, some "CODE_NOT_FOUND"⟩, st)
  | some rc =>
    if rc.is_used then
      (⟨false,
        "❌ Este código ya fue usado" ++
          (match rc.used_by_chat with
           | some ch => " por el chat \"" ++ ch.name ++ "\""
           | none => ""),
        some "CODE_ALREADY_USED"⟩, st)
    else if rc.is_expired st.now then
      (⟨false,
        "❌ Este código expiró el " ++ toString (rc.expires_at.getD 0),
        some "CODE_EXPIRED"⟩, st)
    else
      match st.chats.find?
          (fun ch => ch.chat_id = cd.chat_id && ch.company = rc.company) with
      | some ex =>
        (⟨false,
          "❌ Este chat ya está registrado como \"" ++ ex.name ++
            "\" para tu empresa.",
          some "CHAT_ALREADY_REGISTERED_SAME_COMPANY"⟩, st)
      | none =>
        match st.chats.find? (fun ch => ch.chat_id = cd.chat_id) with
        | some ex =>
          (⟨false,
            "❌ Este chat ya está registrado para la empresa \"" ++
              ex.company ++ "\".",
            some "CHAT_ALREADY_REGISTERED_OTHER_COMPANY"⟩, st)
        | none =>
          if !st.activeBot then
            (⟨false, "❌ Error: No hay bot activo configurado",
              some "NO_ACTIVE_BOT"⟩, st)
          else
            let chat_name :=
              if cd.title ≠ "" then cd.title
              else if cd.username ≠ "" then "@" ++ cd.username
              else "Chat " ++ toString cd.chat_id
            let new_chat : TgChat :=
              ⟨cd.chat_id, rc.company, chat_name⟩
            let codes2 :=
              updateFirst (fun c => c.code = code_norm)
                (markCodeUsed new_chat) st.codes
            let users2 :=
              match rc.assigned_to_user_email with
              | some em =>
                updateFirst
                  (fun u => u.email = em && u.company = rc.company)
                  (fun u => { u with
                    telegram_chat_id := some (toString cd.chat_id) })
                  st.users
              | none => st.users
            (⟨true,
              "✅ ¡Registro exitoso! Tu chat \"" ++ chat_name ++
                "\" ha sido registrado para la empresa " ++ rc.company ++ ".",
              none⟩,
             { st with
               codes := codes2
               chats := st.chats ++ [new_chat]
               users := users2 })

/-! ## Run logging
(`IMAPEmailHandler.process_emails` / `connect` /
`_log_processing_result`, lines 67–88, 302–347 and 503–520 of
`app/imap_handler/services.py`; `PowerBIAlertService
._log_definition_processing` / `._log_global_processing`, lines 856–935
of `app/powerbi_handler/services.py`). -/

/-- The run-log records (statuses) written by one
`IMAPEmailHandler.process_emails` call.  `fetched` holds the per-email
success flags of the non-skipped batch (`False` = `_process_single_email`
raised, incrementing `failed_count`); `run_exc` models the enclosing
`try` block raising.  An empty batch returns early after
`mark_as_checked`, writing nothing. -/
def imap_process_emails_logs (fetched : List Bool) (run_exc : Bool) :
    List String :=
  if run_exc then ["error"]
  else if fetched = [] then []
  else [if (fetched.filter (fun b => !b)).length = 0 then "success"
        else "warning"]

/-- One full mailbox invocation: a `connect` failure writes one `error`
record itself, after which the batch is empty and `process_emails` adds
nothing. -/
def imap_invocation_logs (connect_ok : Bool) (fetched : List Bool)
    (run_exc : Bool) : List String :=
  if !connect_ok then ["error"]
  else imap_process_emails_logs fetched run_exc

/-- `PowerBIAlertService._log_definition_processing` status
derivation: the caller passes `status="error"` when
`_process_alert_definition` raised; otherwise `warning` when any alert
failed, else `success`. -/
def pbi_definition_log_status (alerts_failed : Nat) (raised : Bool) :
    String :=
  if raised then "error"
  else if alerts_failed > 0 then "warning"
  else "success"

/-- `PowerBIAlertService._log_global_processing` status derivation:
`success`, overridden to `warning` when the per-definition error list is
non-empty, overridden to `info` when zero definitions were processed. -/
def pbi_global_log_status (definitions_processed : Nat)
    (errors : List String) : String :=
  let s1 := if errors ≠ [] then "warning" else "success"
  if definitions_processed = 0 then "info" else s1

/-! ## Helper lemmas -/

lemma keywordHit_iff (kws : List String) (text : String) :
    keywordHit kws text = true ↔ ∃ k ∈ kws, pyContains text (pyLower k) = true := by
  induction kws with
  | nil => simp [keywordHit]
  | cons k rest ih =>
    by_cases h : pyContains text (pyLower k)
    · simp [keywordHit, h]
    · simp [keywordHit, h, ih]

lemma insertOrdered_nil (lt : α → α → Bool) (a : α) :
    insertOrdered lt [] a = [a] := rfl

lemma insertOrdered_cons (lt : α → α → Bool) (b : α) (bs : List α) (a : α) :
    insertOrdered lt (b :: bs) a =
      if lt a b then a :: b :: bs else b :: insertOrdered lt bs a := rfl

lemma mem_insertOrdered {lt : α → α → Bool} {x a : α} :
    ∀ {l : List α}, x ∈ insertOrdered lt l a → x = a ∨ x ∈ l := by
  intro l
  induction l with
  | nil =>
    intro h
    rw [insertOrdered_nil] at h
    simp only [List.mem_singleton] at h
    exact Or.inl h
  | cons b bs ih =>
    intro h
    rw [insertOrdered_cons] at h
    by_cases hlt : lt a b
    · rw [if_pos hlt] at h
      simp only [List.mem_cons] at h ⊢
      tauto
    · rw [if_neg hlt] at h
      simp only [List.mem_cons] at h ⊢
      rcases h with hxb | h2
      · tauto
      · rcases ih h2 with h3 | h3 <;> tauto

lemma mem_pySorted_foldl {lt : α → α → Bool} {x : α} :
    ∀ (l acc : List α), x ∈ l.foldl (insertOrdered lt) acc →
      x ∈ acc ∨ x ∈ l := by
  intro l
  induction l with
  | nil => simp
  | cons a rest ih =>
    intro acc h
    rcases ih (insertOrdered lt acc a) h with h1 | h1
    · rcases mem_insertOrdered h1 with rfl | h2
      · right
        simp
      · left
        exact h2
    · right
      simp [h1]

lemma mem_of_mem_pySorted {lt : α → α → Bool} {x : α} {l : List α}
    (h : x ∈ pySorted lt l) : x ∈ l := by
  rcases mem_pySorted_foldl l [] h with h1 | h1
  · cases h1
  · exact h1

/-! ## Claim C6 -/

/-- Claim C6: for every record, the default priority is computed by
scanning the high-priority keyword tier first, then medium, then low,
against the lowercased concatenation of the record's subject, sender and
body; the first tier containing a matching keyword wins, and when no
tier matches the result is `medium`. -/
theorem C6_keyword_default_priority (hi med low : List String)
    (s f c : String) :
    ((∃ k ∈ hi, pyContains (pyLower (s ++ " " ++ f ++ " " ++ c)) (pyLower k) = true) →
      get_email_priority hi med low s f c = "high")
    ∧ ((∀ k ∈ hi, pyContains (pyLower (s ++ " " ++ f ++ " " ++ c)) (pyLower k) = false) →
       (∃ k ∈ med, pyContains (pyLower (s ++ " " ++ f ++ " " ++ c)) (pyLower k) = true) →
      get_email_priority hi med low s f c = "medium")
    ∧ ((∀ k ∈ hi, pyContains (pyLower (s ++ " " ++ f ++ " " ++ c)) (pyLower k) = false) →
       (∀ k ∈ med, pyContains (pyLower (s ++ " " ++ f ++ " " ++ c)) (pyLower k) = false) →
       (∃ k ∈ low, pyContains (pyLower (s ++ " " ++ f ++ " " ++ c)) (pyLower k) = true) →
      get_email_priority hi med low s f c = "low")
    ∧ ((∀ k ∈ hi, pyContains (pyLower (s ++ " " ++ f ++ " " ++ c)) (pyLower k) = false) →
       (∀ k ∈ med, pyContains (pyLower (s ++ " " ++ f ++ " " ++ c)) (pyLower k) = false) →
       (∀ k ∈ low, pyContains (pyLower (s ++ " " ++ f ++ " " ++ c)) (pyLower k) = false) →
      get_email_priority hi med low s f c = "medium") := by
  have hforall : ∀ (kws : List String),
      (∀ k ∈ kws, pyContains (pyLower (s ++ " " ++ f ++ " " ++ c)) (pyLower k) = false) →
      keywordHit kws (pyLower (s ++ " " ++ f ++ " " ++ c)) = false := by
    intro kws h
    rw [Bool.eq_false_iff]
    intro hcon
    rcases (keywordHit_iff kws _).mp hcon with ⟨k, hk, hk2⟩
    rw [h k hk] at hk2
    cases hk2
  refine ⟨?_, ?_, ?_, ?_⟩
  · intro hex
    have h1 : keywordHit hi (pyLower (s ++ " " ++ f ++ " " ++ c)) = true :=
      (keywordHit_iff hi _).mpr hex
    simp [get_email_priority, h1]
  · intro hn hex
    have h1 : keywordHit med (pyLower (s ++ " " ++ f ++ " " ++ c)) = true :=
      (keywordHit_iff med _).mpr hex
    simp [get_email_priority, hforall hi hn, h1]
  · intro hn1 hn2 hex
    have h1 : keywordHit low (pyLower (s ++ " " ++ f ++ " " ++ c)) = true :=
      (keywordHit_iff low _).mpr hex
    simp [get_email_priority, hforall hi hn1, hforall med hn2, h1]
  · intro hn1 hn2 hn3
    simp [get_email_priority, hforall hi hn1, hforall med hn2, hforall low hn3]

/-- Witness for C6: the §8 end-to-end scenario keyword step —
`"urgente"` sits in the high tier and matches the subject
`"URGENTE pedido"`, so the default priority is `high`. -/
theorem C6_keyword_default_priority_witness :
    get_email_priority ["urgente"] ["pedido"] [] "URGENTE pedido"
      "client@x.com" "hola" = "high" :=
  (C6_keyword_default_priority ["urgente"] ["pedido"] [] "URGENTE pedido"
      "client@x.com" "hola").1 ⟨"urgente", by decide, by decide⟩

/-! ## Claim C9 -/

/-- Claim C9: a rule whose regex predicate raises (the `re.search` oracle
returns an error, e.g. for an invalid pattern) evaluates to `false`
rather than propagating; and a batch whose rules all evaluate to `false`
still classifies the record with the keyword default — rule evaluation
never aborts record or batch processing. -/
theorem C9_rule_exception_nonfatal (reS : ReSearch)
    (rule : EmailProcessingRule) (email : EmailData) (msg : String)
    (hi med low : List String) (rules : List EmailProcessingRule) :
    (((rule.criteria_type = CriteriaType.subject_regex ∧
        reS rule.criteria_value email.subject = Except.error msg) ∨
      (rule.criteria_type = CriteriaType.sender_regex ∧
        reS rule.criteria_value email.sender = Except.error msg)) →
      rule.evaluate reS email = false)
    ∧ ((∀ r ∈ rules, r.evaluate reS email = false) →
      apply_processing_rules reS hi med low rules email =
        (get_email_priority hi med low email.subject email.sender email.body,
          none)) := by
  constructor
  · rintro (⟨hct, herr⟩ | ⟨hct, herr⟩) <;>
      simp [EmailProcessingRule.evaluate, hct, herr]
  · intro hall
    have hnone : (pySorted ruleOrderLt
        (rules.filter (·.is_active))).find?
          (fun r => r.evaluate reS email) = none := by
      apply List.find?_eq_none.mpr
      intro r hr
      have hr2 : r ∈ rules := List.mem_of_mem_filter (mem_of_mem_pySorted hr)
      simp [hall r hr2]
    simp [apply_processing_rules, hnone]

/-- Witness for C9: an oracle that always raises (an invalid pattern such
as `"("`) makes a `subject_regex` rule evaluate to `false`, and a batch
consisting of that rule alone still yields the keyword default
priority. -/
theorem C9_rule_exception_nonfatal_witness :
    EmailProcessingRule.evaluate (fun _ _ => Except.error "re.error")
      ⟨"bad", CriteriaType.subject_regex, "(", "critical", none, true, 1⟩
      ⟨"asunto", "remitente", "cuerpo"⟩ = false
    ∧ apply_processing_rules (fun _ _ => Except.error "re.error") [] [] []
      [⟨"bad", CriteriaType.subject_regex, "(", "critical", none, true, 1⟩]
      ⟨"asunto", "remitente", "cuerpo"⟩ = ("medium", none) := by
  have h := C9_rule_exception_nonfatal (fun _ _ => Except.error "re.error")
    ⟨"bad", CriteriaType.subject_regex, "(", "critical", none, true, 1⟩
    ⟨"asunto", "remitente", "cuerpo"⟩ "re.error" [] [] []
    [⟨"bad", CriteriaType.subject_regex, "(", "critical", none, true, 1⟩]
  have h1 := h.1 (Or.inl ⟨rfl, rfl⟩)
  refine ⟨h1, ?_⟩
  have h2 := h.2 (by simpa using h1)
  simpa using h2

lemma charsLt_nil_cons (c : Char) (cs : List Char) :
    charsLt [] (c :: cs) = true := rfl

lemma charsLt_cons_nil (c : Char) (cs : List Char) :
    charsLt (c :: cs) [] = false := rfl

lemma charsLt_cons_cons (x y : Char) (xs ys : List Char) :
    charsLt (x :: xs) (y :: ys) =
      if x.toNat < y.toNat then true
      else if y.toNat < x.toNat then false
      else charsLt xs ys := rfl

lemma charsLt_asymm : ∀ (a b : List Char),
    charsLt a b = true → charsLt b a = false := by
  intro a
  induction a with
  | nil =>
    intro b h
    cases b with
    | nil => cases h
    | cons c cs => exact charsLt_cons_nil c cs
  | cons x xs ih =>
    intro b h
    cases b with
    | nil => rw [charsLt_cons_nil] at h; cases h
    | cons y ys =>
      rw [charsLt_cons_cons] at h
      rw [charsLt_cons_cons]
      by_cases h1 : x.toNat < y.toNat
      · rw [if_neg (by omega), if_pos h1]
      · rw [if_neg h1] at h
        by_cases h2 : y.toNat < x.toNat
        · rw [if_pos h2] at h
          cases h
        · rw [if_neg h2] at h
          rw [if_neg h2, if_neg h1]
          exact ih ys h

lemma charsLt_trans : ∀ (a b c : List Char),
    charsLt a b = true → charsLt b c = true → charsLt a c = true := by
  intro a
  induction a with
  | nil =>
    intro b c h1 h2
    cases b with
    | nil => cases h1
    | cons y ys =>
      cases c with
      | nil => rw [charsLt_cons_nil] at h2; cases h2
      | cons z zs => exact charsLt_nil_cons z zs
  | cons x xs ih =>
    intro b c h1 h2
    cases b with
    | nil => rw [charsLt_cons_nil] at h1; cases h1
    | cons y ys =>
      cases c with
      | nil => rw [charsLt_cons_nil] at h2; cases h2
      | cons z zs =>
        rw [charsLt_cons_cons] at h1 h2 ⊢
        by_cases hxy : x.toNat < y.toNat
        · by_cases hyz : y.toNat < z.toNat
          · rw [if_pos (by omega)]
          · rw [if_neg hyz] at h2
            by_cases hzy : z.toNat < y.toNat
            · rw [if_pos hzy] at h2
              cases h2
            · rw [if_pos (by omega)]
        · rw [if_neg hxy] at h1
          by_cases hyx : y.toNat < x.toNat
          · rw [if_pos hyx] at h1
            cases h1
          · rw [if_neg hyx] at h1
            by_cases hyz : y.toNat < z.toNat
            · rw [if_pos (by omega)]
            · rw [if_neg hyz] at h2
              by_cases hzy : z.toNat < y.toNat
              · rw [if_pos hzy] at h2
                cases h2
              · rw [if_neg hzy] at h2
                rw [if_neg (by omega), if_neg (by omega)]
                exact ih ys zs h1 h2

lemma ruleOrderLt_asymm (r q : EmailProcessingRule)
    (h : ruleOrderLt r q = true) : ruleOrderLt q r = false := by
  unfold ruleOrderLt at h ⊢
  by_cases he : r.order = q.order
  · rw [if_pos he] at h
    rw [if_pos he.symm]
    exact charsLt_asymm _ _ h
  · rw [if_neg he] at h
    rw [if_neg (fun hq => he hq.symm)]
    simp only [decide_eq_true_eq] at h
    simp only [decide_eq_false_iff_not]
    omega

lemma ruleOrderLt_trans (r q p : EmailProcessingRule)
    (h1 : ruleOrderLt r q = true) (h2 : ruleOrderLt q p = true) :
    ruleOrderLt r p = true := by
  unfold ruleOrderLt at h1 h2 ⊢
  by_cases he1 : r.order = q.order
  · rw [if_pos he1] at h1
    by_cases he2 : q.order = p.order
    · rw [if_pos he2] at h2
      rw [if_pos (he1.trans he2)]
      exact charsLt_trans _ _ _ h1 h2
    · rw [if_neg he2] at h2
      simp only [decide_eq_true_eq] at h2
      rw [if_neg (by omega)]
      simp only [decide_eq_true_eq]
      omega
  · rw [if_neg he1] at h1
    simp only [decide_eq_true_eq] at h1
    by_cases he2 : q.order = p.order
    · rw [if_neg (by omega)]
      simp only [decide_eq_true_eq]
      omega
    · rw [if_neg he2] at h2
      simp only [decide_eq_true_eq] at h2
      rw [if_neg (by omega)]
      simp only [decide_eq_true_eq]
      omega

lemma pairwise_insertOrdered {lt : α → α → Bool}
    (htrans : ∀ a b c, lt a b = true → lt b c = true → lt a c = true)
    (hasymm : ∀ a b, lt a b = true → lt b a = false) :
    ∀ (l : List α) (a : α),
      l.Pairwise (fun x y => lt y x = false) →
      (insertOrdered lt l a).Pairwise (fun x y => lt y x = false) := by
  intro l
  induction l with
  | nil =>
    intro a _
    rw [insertOrdered_nil]
    exact List.pairwise_singleton _ a
  | cons b bs ih =>
    intro a hp
    rw [insertOrdered_cons]
    rcases List.pairwise_cons.mp hp with ⟨hb, hbs⟩
    by_cases hlt : lt a b
    · rw [if_pos hlt]
      refine List.pairwise_cons.mpr ⟨?_, hp⟩
      intro x hx
      rcases List.mem_cons.mp hx with rfl | hx2
      · exact hasymm a x hlt
      · rw [Bool.eq_false_iff]
        intro hxa
        have hxb : lt x b = true := htrans x a b hxa hlt
        rw [hb x hx2] at hxb
        cases hxb
    · rw [if_neg hlt]
      refine List.pairwise_cons.mpr ⟨?_, ih a hbs⟩
      intro x hx
      rcases mem_insertOrdered hx with rfl | hx2
      · exact Bool.eq_false_iff.mpr hlt
      · exact hb x hx2

lemma pairwise_pySorted_foldl {lt : α → α → Bool}
    (htrans : ∀ a b c, lt a b = true → lt b c = true → lt a c = true)
    (hasymm : ∀ a b, lt a b = true → lt b a = false) :
    ∀ (l acc : List α),
      acc.Pairwise (fun x y => lt y x = false) →
      (l.foldl (insertOrdered lt) acc).Pairwise (fun x y => lt y x = false) := by
  intro l
  induction l with
  | nil => intro acc h; exact h
  | cons a rest ih =>
    intro acc h
    exact ih (insertOrdered lt acc a)
      (pairwise_insertOrdered htrans hasymm acc a h)

lemma pairwise_pySorted {lt : α → α → Bool}
    (htrans : ∀ a b c, lt a b = true → lt b c = true → lt a c = true)
    (hasymm : ∀ a b, lt a b = true → lt b a = false) (l : List α) :
    (pySorted lt l).Pairwise (fun x y => lt y x = false) :=
  pairwise_pySorted_foldl htrans hasymm l [] (List.Pairwise.nil)

/-! ## Claim C5 -/

/-- Claim C5: rules are evaluated in ascending `(order, name)` order —
the evaluated list is sorted that way — and the first rule whose
predicate matches overrides the keyword default (priority and optional
role) with no further rule evaluated; in particular a record matching
both a `subject contains URGENT → critical` rule with `order = 1` and a
`sender contains @vip.com → high` rule with `order = 2` is assigned
`critical`, whichever order the rules are stored in. -/
theorem C5_rule_precedence (reS : ReSearch) (hi med low : List String)
    (rules : List EmailProcessingRule) (email : EmailData)
    (r : EmailProcessingRule) (rest : List EmailProcessingRule) :
    ((pySorted ruleOrderLt (rules.filter (·.is_active))).Pairwise
      (fun x y => ruleOrderLt y x = false))
    ∧ (pySorted ruleOrderLt (rules.filter (·.is_active)) = r :: rest →
       r.evaluate reS email = true →
       apply_processing_rules reS hi med low rules email =
         (r.priority, r.assign_to_role))
    ∧ (apply_processing_rules (fun _ _ => Except.ok false) ["urgente"] [] []
        [⟨"vip", CriteriaType.sender_contains, "@vip.com", "high", none, true, 2⟩,
         ⟨"urgent", CriteriaType.subject_contains, "URGENT", "critical", none, true, 1⟩]
        ⟨"URGENT pedido", "boss@vip.com", "hola"⟩ = ("critical", none)
      ∧ apply_processing_rules (fun _ _ => Except.ok false) ["urgente"] [] []
        [⟨"urgent", CriteriaType.subject_contains, "URGENT", "critical", none, true, 1⟩,
         ⟨"vip", CriteriaType.sender_contains, "@vip.com", "high", none, true, 2⟩]
        ⟨"URGENT pedido", "boss@vip.com", "hola"⟩ = ("critical", none)) := by
  refine ⟨pairwise_pySorted ruleOrderLt_trans ruleOrderLt_asymm _, ?_, ?_, ?_⟩
  · intro hsorted heval
    unfold apply_processing_rules
    rw [hsorted]
    simp [List.find?, heval]
  · decide
  · decide

/-- Witness for C5: a single active `subject contains URGENT → critical`
rule heads the sorted list, matches the scenario email, and the theorem
yields `critical` with no role. -/
theorem C5_rule_precedence_witness :
    apply_processing_rules (fun _ _ => Except.ok false) ["urgente"] [] []
      [⟨"urgent", CriteriaType.subject_contains, "URGENT", "critical", none, true, 1⟩]
      ⟨"URGENT pedido", "boss@vip.com", "hola"⟩ = ("critical", none) :=
  (C5_rule_precedence (fun _ _ => Except.ok false) ["urgente"] [] []
      [⟨"urgent", CriteriaType.subject_contains, "URGENT", "critical", none, true, 1⟩]
      ⟨"URGENT pedido", "boss@vip.com", "hola"⟩
      ⟨"urgent", CriteriaType.subject_contains, "URGENT", "critical", none, true, 1⟩
      []).2.1 (by decide) (by decide)

/-! ## Intercalate helper lemmas (for the formatter claims) -/

lemma intercalate_go_cons (acc s a : String) (as : List String) :
    String.intercalate.go acc s (a :: as) =
      String.intercalate.go (acc ++ s ++ a) s as := rfl

lemma intercalate_go_split (s : String) :
    ∀ (l : List String) (acc : String),
      ∃ t, String.intercalate.go acc s l = acc ++ t := by
  intro l
  induction l with
  | nil => intro acc; exact ⟨"", (String.append_empty acc).symm⟩
  | cons a as ih =>
    intro acc
    rcases ih (acc ++ s ++ a) with ⟨t, ht⟩
    refine ⟨s ++ (a ++ t), ?_⟩
    rw [intercalate_go_cons, ht]
    simp [String.append_assoc]

lemma intercalate_head_split (s a : String) (l : List String) :
    ∃ t, String.intercalate s (a :: l) = a ++ t := by
  show ∃ t, String.intercalate.go a s l = a ++ t
  exact intercalate_go_split s l a

lemma intercalate_go_mem_split (s x : String) :
    ∀ (l : List String) (acc : String), x ∈ l →
      ∃ p t, String.intercalate.go acc s l = p ++ x ++ t := by
  intro l
  induction l with
  | nil => intro acc h; cases h
  | cons b bs ih =>
    intro acc h
    rcases List.mem_cons.mp h with rfl | h2
    · rcases intercalate_go_split s bs (acc ++ s ++ x) with ⟨t, ht⟩
      refine ⟨acc ++ s, t, ?_⟩
      rw [intercalate_go_cons, ht]
    · exact ih (acc ++ s ++ b) h2

lemma intercalate_mem_split (s x : String) (l : List String) (h : x ∈ l) :
    ∃ p t, String.intercalate s l = p ++ x ++ t := by
  cases l with
  | nil => cases h
  | cons a as =>
    rcases List.mem_cons.mp h with rfl | h2
    · rcases intercalate_head_split s x as with ⟨t, ht⟩
      exact ⟨"", t, by rw [ht]; rw [String.empty_append]⟩
    · show ∃ p t, String.intercalate.go a s as = p ++ x ++ t
      exact intercalate_go_mem_split s x as a h2

lemma intercalate_head_ne_empty (a : String) (l : List String)
    (ha : 0 < a.length) : String.intercalate "\n" (a :: l) ≠ "" := by
  intro h
  rcases intercalate_head_split "\n" a l with ⟨t, ht⟩
  rw [ht] at h
  have h2 := congrArg String.length h
  rw [String.length_append] at h2
  simp only [String.length_empty] at h2
  omega

/-! ## Claim C4 -/

/-- Claim C4: with no template and no AI backend configured
`_format_with_openai` returns the deterministic basic format (a pure
function — no network call), and on backend HTTP error, timeout, or any
exception `format_alert` returns the deterministic fallback format; both
outputs are non-empty, start with the priority emoji and bold title, and
list every field of the record with its value truncated at 100
characters (at most 103 rendered characters including the `"..."`
marker). -/
theorem C4_fallback_formatting (row : PBRow) (dn cn dp : String)
    (status : Nat) (txt msg : String) (ctx : FormatContext) :
    format_with_openai none dn cn dp row = basic_format dn cn dp row
    ∧ format_alert (OpenAIOutcome.httpError status txt) row ctx =
        fallback_format row ctx
    ∧ format_alert OpenAIOutcome.timeout row ctx = fallback_format row ctx
    ∧ format_alert (OpenAIOutcome.exc msg) row ctx = fallback_format row ctx
    ∧ basic_format dn cn dp row ≠ ""
    ∧ fallback_format row ctx ≠ ""
    ∧ (∃ t, basic_format dn cn dp row =
        (priorityEmoji dp ++ " <b>" ++ dn ++ "</b>") ++ t)
    ∧ (∀ kv ∈ row, ∃ p t, basic_format dn cn dp row = p ++ fieldLine kv ++ t)
    ∧ (∀ kv ∈ row, ∃ p t, fallback_format row ctx = p ++ fieldLine kv ++ t)
    ∧ (∀ s : String, (truncateValue s).length ≤ 103
        ∧ (s.length ≤ 100 → truncateValue s = s)) := by
  have hhdr : ∀ e n c : String, 0 < (e ++ " <b>" ++ n ++ c).length := by
    intro e n c
    simp only [String.length_append]
    have h4 : (" <b>" : String).length = 4 := by decide
    omega
  refine ⟨rfl, rfl, rfl, rfl, ?_, ?_, ?_, ?_, ?_, ?_⟩
  · exact intercalate_head_ne_empty _ _ (hhdr (priorityEmoji dp) dn "</b>")
  · exact intercalate_head_ne_empty _ _
      (hhdr (priorityEmoji (ctx.priority.getD "medium"))
        (ctx.alert_name.getD "Alerta Power BI") "</b>")
  · exact intercalate_head_split "\n" _ _
  · intro kv hkv
    apply intercalate_mem_split
    simp only [List.mem_append, List.mem_cons, List.mem_map]
    right
    exact ⟨kv, hkv, rfl⟩
  · intro kv hkv
    exact intercalate_mem_split "\n" (fieldLine kv)
      ([priorityEmoji (ctx.priority.getD "medium") ++ " <b>" ++
          ctx.alert_name.getD "Alerta Power BI" ++ "</b>", ""] ++
        (match ctx.company_name with
         | some c => if c ≠ "" then ["<b>Empresa:</b> " ++ c] else []
         | none => []) ++ row.map fieldLine)
      (by
        simp only [List.mem_append, List.mem_cons, List.mem_map]
        right
        exact ⟨kv, hkv, rfl⟩)
  · intro s
    constructor
    · unfold truncateValue
      by_cases h : s.length > 100
      · rw [if_pos h]
        rw [String.length_append]
        have h1 : (String.mk (s.data.take 100)).length = (s.data.take 100).length := rfl
        have h2 : (s.data.take 100).length ≤ 100 := by
          rw [List.length_take]
          omega
        have h3 : ("..." : String).length = 3 := by decide
        omega
      · rw [if_neg h]
        omega
    · intro hle
      unfold truncateValue
      rw [if_neg (by omega)]

/-- Witness for C4: a one-field record rendered by the basic formatter
contains its field line and the output is non-empty. -/
theorem C4_fallback_formatting_witness :
    (∃ p t, basic_format "Stock bajo" "ACME" "high"
        [("Producto", PBValue.vStr "Yerba")] =
      p ++ fieldLine ("Producto", PBValue.vStr "Yerba") ++ t)
    ∧ basic_format "Stock bajo" "ACME" "high"
        [("Producto", PBValue.vStr "Yerba")] ≠ "" := by
  have h := C4_fallback_formatting [("Producto", PBValue.vStr "Yerba")]
    "Stock bajo" "ACME" "high" 500 "err" "boom" ⟨none, none, none⟩
  exact ⟨h.2.2.2.2.2.2.2.1 ("Producto", PBValue.vStr "Yerba") (by decide),
    h.2.2.2.2.1⟩

/-! ## Claim C3 -/

lemma dispatchLoop_go (outcome : TelegramChatRec → SendOutcome) :
    ∀ (l : List TelegramChatRec) (n : Nat) (errs : List String),
      l.foldl
        (fun acc chat =>
          match outcome chat with
          | .ok => (acc.1 + 1, acc.2)
          | .returnedFalse => acc
          | .raised m =>
            (acc.1, acc.2 ++ ["Chat " ++ toString chat.chat_id ++ ": " ++ m]))
        (n, errs) =
      (n + (l.filter (fun c => outcome c == SendOutcome.ok)).length,
       errs ++ l.filterMap (fun c =>
         match outcome c with
         | .raised m => some ("Chat " ++ toString c.chat_id ++ ": " ++ m)
         | _ => none)) := by
  intro l
  induction l with
  | nil => intro n errs; simp
  | cons c rest ih =>
    intro n errs
    rw [List.foldl_cons]
    cases houtcome : outcome c with
    | ok =>
      simp only [houtcome]
      rw [ih]
      simp [List.filter_cons, List.filterMap_cons, houtcome, Nat.add_comm,
        Nat.add_assoc, Nat.add_left_comm]
    | returnedFalse =>
      simp only [houtcome]
      rw [ih]
      simp [List.filter_cons, List.filterMap_cons, houtcome]
    | raised m =>
      simp only [houtcome]
      rw [ih]
      simp [List.filter_cons, List.filterMap_cons, houtcome]

lemma dispatchLoop_eq (outcome : TelegramChatRec → SendOutcome)
    (l : List TelegramChatRec) :
    dispatchLoop outcome l =
      ((l.filter (fun c => outcome c == SendOutcome.ok)).length,
       l.filterMap (fun c =>
         match outcome c with
         | .raised m => some ("Chat " ++ toString c.chat_id ++ ": " ++ m)
         | _ => none)) := by
  unfold dispatchLoop
  rw [dispatchLoop_go]
  simp

lemma send_email_alert_try (est eerr : String) (chats : List TgEmailChat)
    (outcome : TgEmailChat → SendOutcome) :
    send_email_alert true none est eerr chats outcome =
      (if chats.filter (fun c => c.is_active && c.email_alerts) = [] then
        ⟨false, est, eerr⟩
      else if 0 < ((chats.filter (fun c => c.is_active && c.email_alerts)).filter
          (fun c => outcome c == SendOutcome.ok)).length then
        ⟨true, "sent", eerr⟩
      else ⟨false, est, eerr⟩) := rfl

/-- Claim C3 (amended): metric-query dispatch (`_send_to_telegram`): at
least one success marks the instance `sent`; all-fail marks it `failed`
with the `"; "`-joined per-destination exception strings when the sends
raised, or the fixed `"No se pudo enviar"` text otherwise
(per-destination errors then live on the individual notification-log
entries); zero active destinations mark it `ignored` with a non-empty
error.  Mailbox dispatch (`send_email_alert`): at least one success
marks the email `sent`, but when every send fails, or no active
email-subscribed destination (or no company) exists, the method merely
returns `False` and leaves the email's status and error untouched (it
stays `pending`) — `failed` is written only when the dispatch block
itself raises. -/
theorem C3_dispatch_semantics (chats : List TelegramChatRec)
    (outcome : TelegramChatRec → SendOutcome)
    (f : TelegramChatRec → String) (echats : List TgEmailChat)
    (eoutcome : TgEmailChat → SendOutcome) (est eerr m : String) :
    ((chats.filter (·.is_active) = []) →
      (send_to_telegram chats outcome).status = "ignored"
      ∧ (send_to_telegram chats outcome).error_message ≠ "")
    ∧ ((∃ c ∈ chats.filter (·.is_active), outcome c = SendOutcome.ok) →
      (send_to_telegram chats outcome).status = "sent"
      ∧ (send_to_telegram chats outcome).returned = true)
    ∧ (chats.filter (·.is_active) ≠ [] →
       (∀ c ∈ chats.filter (·.is_active), outcome c ≠ SendOutcome.ok) →
      (send_to_telegram chats outcome).status = "failed"
      ∧ (send_to_telegram chats outcome).returned = false)
    ∧ (chats.filter (·.is_active) ≠ [] →
       (∀ c ∈ chats.filter (·.is_active), outcome c = SendOutcome.raised (f c)) →
      (send_to_telegram chats outcome).error_message =
        String.intercalate "; " ((chats.filter (·.is_active)).map
          (fun c => "Chat " ++ toString c.chat_id ++ ": " ++ f c)))
    ∧ ((∃ c ∈ echats.filter (fun c => c.is_active && c.email_alerts),
          eoutcome c = SendOutcome.ok) →
      send_email_alert true none est eerr echats eoutcome =
        ⟨true, "sent", eerr⟩)
    ∧ (echats.filter (fun c => c.is_active && c.email_alerts) = [] →
      send_email_alert true none est eerr echats eoutcome =
        ⟨false, est, eerr⟩)
    ∧ (echats.filter (fun c => c.is_active && c.email_alerts) ≠ [] →
       (∀ c ∈ echats.filter (fun c => c.is_active && c.email_alerts),
          eoutcome c ≠ SendOutcome.ok) →
      send_email_alert true none est eerr echats eoutcome =
        ⟨false, est, eerr⟩)
    ∧ send_email_alert true (some m) est eerr echats eoutcome =
        ⟨false, "failed", "Error: " ++ m⟩
    ∧ send_email_alert false none est eerr echats eoutcome =
        ⟨false, est, eerr⟩ := by
  refine ⟨?_, ?_, ?_, ?_, ?_, ?_, ?_, rfl, rfl⟩
  · intro hempty
    unfold send_to_telegram
    rw [if_pos hempty]
    refine ⟨rfl, by decide⟩
  · intro hex
    have hne : chats.filter (·.is_active) ≠ [] := by
      rcases hex with ⟨c, hc, _⟩
      intro h
      rw [h] at hc
      cases hc
    have hpos : 0 < ((chats.filter (·.is_active)).filter
        (fun c => outcome c == SendOutcome.ok)).length := by
      rcases hex with ⟨c, hc, hoc⟩
      apply List.length_pos.mpr
      intro h
      have : c ∈ (chats.filter (·.is_active)).filter
          (fun c => outcome c == SendOutcome.ok) :=
        List.mem_filter.mpr ⟨hc, by simp [hoc]⟩
      rw [h] at this
      cases this
    unfold send_to_telegram
    rw [if_neg hne]
    rw [dispatchLoop_eq]
    simp only
    rw [if_pos hpos]
    exact ⟨rfl, rfl⟩
  · intro hne hall
    have hzero : ((chats.filter (·.is_active)).filter
        (fun c => outcome c == SendOutcome.ok)).length = 0 := by
      rw [List.length_eq_zero]
      rw [List.filter_eq_nil]
      intro c hc
      simp only [beq_iff_eq]
      exact hall c hc
    unfold send_to_telegram
    rw [if_neg hne]
    rw [dispatchLoop_eq]
    simp only
    rw [hzero]
    rw [if_neg (by omega)]
    exact ⟨rfl, rfl⟩
  · intro hne hall
    have hzero : ((chats.filter (·.is_active)).filter
        (fun c => outcome c == SendOutcome.ok)).length = 0 := by
      rw [List.length_eq_zero]
      rw [List.filter_eq_nil]
      intro c hc
      rw [hall c hc]
      simp
    have hmapgen : ∀ l : List TelegramChatRec,
        (∀ c ∈ l, outcome c = SendOutcome.raised (f c)) →
        l.filterMap (fun c =>
          match outcome c with
          | .raised m => some ("Chat " ++ toString c.chat_id ++ ": " ++ m)
          | _ => none) =
        l.map (fun c => "Chat " ++ toString c.chat_id ++ ": " ++ f c) := by
      intro l
      induction l with
      | nil => intro _; simp
      | cons c rest ih =>
        intro hl
        rw [List.filterMap_cons, List.map_cons]
        simp only [hl c (List.mem_cons_self c rest),
          ih (fun x hx => hl x (List.mem_cons_of_mem c hx))]
    have hmap := hmapgen (chats.filter (·.is_active)) hall
    have hmapne : (chats.filter (·.is_active)).map
        (fun c => "Chat " ++ toString c.chat_id ++ ": " ++ f c) ≠ [] := by
      intro h
      exact hne (List.map_eq_nil.mp h)
    unfold send_to_telegram
    rw [if_neg hne]
    rw [dispatchLoop_eq]
    simp only
    rw [hzero]
    rw [if_neg (by omega)]
    simp only [hmap]
    rw [if_pos hmapne]
  · intro hex
    have hne2 : echats.filter (fun c => c.is_active && c.email_alerts) ≠ [] := by
      rcases hex with ⟨c, hc, _⟩
      intro h
      rw [h] at hc
      cases hc
    have hpos : 0 < ((echats.filter (fun c => c.is_active && c.email_alerts)).filter
        (fun c => eoutcome c == SendOutcome.ok)).length := by
      rcases hex with ⟨c, hc, hoc⟩
      apply List.length_pos.mpr
      intro h
      have : c ∈ (echats.filter (fun c => c.is_active && c.email_alerts)).filter
          (fun c => eoutcome c == SendOutcome.ok) :=
        List.mem_filter.mpr ⟨hc, by simp [hoc]⟩
      rw [h] at this
      cases this
    rw [send_email_alert_try, if_neg hne2, if_pos hpos]
  · intro hempty
    rw [send_email_alert_try, if_pos hempty]
  · intro hne2 hall
    have hzero : ((echats.filter (fun c => c.is_active && c.email_alerts)).filter
        (fun c => eoutcome c == SendOutcome.ok)).length = 0 := by
      rw [List.length_eq_zero]
      rw [List.filter_eq_nil]
      intro c hc
      simp only [beq_iff_eq]
      exact hall c hc
    rw [send_email_alert_try, if_neg hne2, if_neg (by omega)]

/-- Counterexample for C3 as stated: on the metric-query path, two
active destinations whose sends both return `False` without raising
leave the instance `failed` with the fixed `"No se pudo enviar"` — not
the concatenation of the per-destination errors recorded on the
notification-log entries; and on the mailbox path, an all-fail dispatch
leaves the `ReceivedEmail` in its prior `pending` state (never
`failed`), and zero matching destinations also leave it `pending`
(never `ignored`). -/
theorem C3_dispatch_counterexample :
    (send_to_telegram [⟨1, "c1", true⟩, ⟨2, "c2", true⟩]
      (fun _ => SendOutcome.returnedFalse)).status = "failed"
    ∧ (send_to_telegram [⟨1, "c1", true⟩, ⟨2, "c2", true⟩]
      (fun _ => SendOutcome.returnedFalse)).chatLogs =
        [("failed", "Error enviando mensaje (sin detalles)"),
         ("failed", "Error enviando mensaje (sin detalles)")]
    ∧ (send_to_telegram [⟨1, "c1", true⟩, ⟨2, "c2", true⟩]
      (fun _ => SendOutcome.returnedFalse)).error_message = "No se pudo enviar"
    ∧ (send_to_telegram [⟨1, "c1", true⟩, ⟨2, "c2", true⟩]
      (fun _ => SendOutcome.returnedFalse)).error_message ≠
        String.intercalate "; " ["Error enviando mensaje (sin detalles)",
          "Error enviando mensaje (sin detalles)"]
    ∧ send_email_alert true none "pending" "" [⟨1, "c1", true, true⟩]
        (fun _ => SendOutcome.returnedFalse) = ⟨false, "pending", ""⟩
    ∧ (send_email_alert true none "pending" "" [⟨1, "c1", true, true⟩]
        (fun _ => SendOutcome.returnedFalse)).status ≠ "failed"
    ∧ send_email_alert true none "pending" "" []
        (fun _ => SendOutcome.ok) = ⟨false, "pending", ""⟩
    ∧ (send_email_alert true none "pending" "" []
        (fun _ => SendOutcome.ok)).status ≠ "ignored" := by
  refine ⟨rfl, rfl, rfl, by decide, rfl, by decide, rfl, by decide⟩

/-- Witness for C3: zero destinations yield `ignored` on the
metric-query path; the §8 scenario (D1 fails, D2 succeeds) yields `sent`
on both paths; two metric-query destinations that both raise yield
`failed` with the joined exception messages; an all-fail mailbox
dispatch returns `False` with the email left `pending`. -/
theorem C3_dispatch_semantics_witness :
    (send_to_telegram [] (fun _ => SendOutcome.ok)).status = "ignored"
    ∧ (send_to_telegram [⟨1, "D1", true⟩, ⟨2, "D2", true⟩]
        (fun c => if c.chat_id = 1 then SendOutcome.returnedFalse
          else SendOutcome.ok)).status = "sent"
    ∧ (send_to_telegram [⟨1, "D1", true⟩, ⟨2, "D2", true⟩]
        (fun _ => SendOutcome.raised "Forbidden")).error_message =
      String.intercalate "; " ["Chat 1: Forbidden", "Chat 2: Forbidden"]
    ∧ send_email_alert true none "pending" ""
        [⟨1, "D1", true, true⟩, ⟨2, "D2", true, true⟩]
        (fun c => if c.chat_id = 1 then SendOutcome.returnedFalse
          else SendOutcome.ok) = ⟨true, "sent", ""⟩
    ∧ send_email_alert true none "pending" "" [⟨1, "D1", true, true⟩]
        (fun _ => SendOutcome.returnedFalse) = ⟨false, "pending", ""⟩ := by
  refine ⟨?_, ?_, ?_, ?_, ?_⟩
  · exact ((C3_dispatch_semantics [] (fun _ => SendOutcome.ok)
      (fun _ => "") [] (fun _ => SendOutcome.ok) "pending" "" "").1
      (by decide)).1
  · exact ((C3_dispatch_semantics [⟨1, "D1", true⟩, ⟨2, "D2", true⟩]
      (fun c => if c.chat_id = 1 then SendOutcome.returnedFalse
        else SendOutcome.ok)
      (fun _ => "") [] (fun _ => SendOutcome.ok) "pending" "" "").2.1
      ⟨⟨2, "D2", true⟩, by decide, by decide⟩).1
  · have h := (C3_dispatch_semantics [⟨1, "D1", true⟩, ⟨2, "D2", true⟩]
      (fun _ => SendOutcome.raised "Forbidden")
      (fun _ => "Forbidden") [] (fun _ => SendOutcome.ok)
      "pending" "" "").2.2.2.1 (by decide) (by decide)
    rw [h]
    decide
  · exact (C3_dispatch_semantics [] (fun _ => SendOutcome.ok) (fun _ => "")
      [⟨1, "D1", true, true⟩, ⟨2, "D2", true, true⟩]
      (fun c => if c.chat_id = 1 then SendOutcome.returnedFalse
        else SendOutcome.ok) "pending" "" "").2.2.2.2.1
      ⟨⟨2, "D2", true, true⟩, by decide, by decide⟩
  · exact (C3_dispatch_semantics [] (fun _ => SendOutcome.ok) (fun _ => "")
      [⟨1, "D1", true, true⟩] (fun _ => SendOutcome.returnedFalse)
      "pending" "" "").2.2.2.2.2.2.1 (by decide) (by decide)

/-! ## Substring characterization (for claim C2) -/

lemma charsStartWith_nil_left (s : List Char) (hs : s ≠ []) :
    charsStartWith [] s = false := by
  cases s with
  | nil => exact absurd rfl hs
  | cons b bs => rfl

lemma charsStartWith_iff : ∀ (s l : List Char),
    charsStartWith l s = true ↔ s <+: l := by
  intro s
  induction s with
  | nil =>
    intro l
    constructor
    · intro _
      exact List.nil_prefix
    · intro _
      cases l <;> rfl
  | cons b bs ih =>
    intro l
    cases l with
    | nil =>
      rw [charsStartWith_nil_left (b :: bs) (by simp)]
      simp
    | cons a as =>
      show (a = b && charsStartWith as bs) = true ↔ _
      rw [Bool.and_eq_true, decide_eq_true_eq, ih as]
      constructor
      · rintro ⟨rfl, t, rfl⟩
        exact ⟨t, rfl⟩
      · rintro ⟨t, ht⟩
        injection ht with h1 h2
        exact ⟨h1.symm, t, h2⟩

lemma charsContain_def (l s : List Char) :
    charsContain l s =
      if charsStartWith l s then true
      else match l with
        | [] => false
        | _ :: t => charsContain t s := by
  cases l <;> rw [charsContain]

lemma charsContain_iff : ∀ (l s : List Char),
    charsContain l s = true ↔ s <:+: l := by
  intro l
  induction l with
  | nil =>
    intro s
    rw [charsContain_def]
    cases s with
    | nil =>
      rw [if_pos (show charsStartWith [] [] = true from rfl)]
      simp
    | cons b bs =>
      rw [if_neg (by rw [charsStartWith_nil_left (b :: bs) (by simp)]; simp)]
      constructor
      · intro hfalse
        cases hfalse
      · rintro ⟨p, t, hpt⟩
        simp at hpt
  | cons a as ih =>
    intro s
    rw [charsContain_def]
    by_cases h : charsStartWith (a :: as) s
    · rw [if_pos h]
      rcases (charsStartWith_iff s (a :: as)).mp h with ⟨t, ht⟩
      simp only [true_iff]
      exact ⟨[], t, by simpa using ht⟩
    · rw [if_neg h]
      rw [ih s]
      constructor
      · rintro ⟨p, t, hpt⟩
        exact ⟨a :: p, t, by simp [hpt]⟩
      · rintro ⟨p, t, hpt⟩
        cases p with
        | nil =>
          exfalso
          apply h
          apply (charsStartWith_iff s (a :: as)).mpr
          exact ⟨t, by simpa using hpt⟩
        | cons x p2 =>
          injection hpt with h1 h2
          exact ⟨p2, t, h2⟩

lemma pyContains_iff (s sub : String) :
    pyContains s sub = true ↔ sub.data <:+: s.data :=
  charsContain_iff s.data sub.data

lemma pyStrip_infix (chars : List Char) (s : String) :
    (pyStrip chars s).data <:+: s.data := by
  have h1 : s.data.dropWhile (chars.contains ·) <:+ s.data :=
    List.dropWhile_suffix _
  have h2 : (s.data.dropWhile (chars.contains ·)).reverse.dropWhile
      (chars.contains ·) <:+ (s.data.dropWhile (chars.contains ·)).reverse :=
    List.dropWhile_suffix _
  have h3 : ((s.data.dropWhile (chars.contains ·)).reverse.dropWhile
      (chars.contains ·)).reverse <+: s.data.dropWhile (chars.contains ·) := by
    have h4 := List.reverse_prefix.mpr h2
    rwa [List.reverse_reverse] at h4
  exact (h3.isInfix).trans h1.isInfix

lemma pyEndsWith_suffix (s t : String) (h : pyEndsWith s t = true) :
    t.data <:+ s.data := by
  unfold pyEndsWith at h
  rcases (charsStartWith_iff t.data.reverse s.data.reverse).mp h with ⟨q, hq⟩
  rw [List.IsSuffix]
  refine ⟨q.reverse, ?_⟩
  have := congrArg List.reverse hq
  simpa using this

/-- If a (lowercased) column name does not contain `"id"`, none of the
three detection scans can select it. -/
lemma no_id_scans_fail (k : String)
    (h : pyContains (pyLower k) "id" = false) :
    (pyStrip ['[', ']'] (pyLower k) = "id" → False)
    ∧ (pyEndsWith (pyStrip ['[', ']'] (pyLower k)) "_id" = true → False)
    ∧ (pyEndsWith (pyStrip ['[', ']'] (pyLower k)) "id_" = true → False) := by
  have hstrip := pyStrip_infix ['[', ']'] (pyLower k)
  have hcontra : ("id" : String).data <:+: (pyLower k).data → False := by
    intro hinf
    rw [← pyContains_iff] at hinf
    rw [h] at hinf
    cases hinf
  refine ⟨?_, ?_, ?_⟩
  · intro heq
    apply hcontra
    rw [← heq]
    exact hstrip
  · intro hends
    apply hcontra
    have h1 : ("id" : String).data <:+ ("_id" : String).data := ⟨['_'], rfl⟩
    have h2 := pyEndsWith_suffix _ _ hends
    exact (h1.trans h2).isInfix.trans hstrip
  · intro hends
    apply hcontra
    have h1 : ("id" : String).data <+: ("id_" : String).data := ⟨['_'], rfl⟩
    have h2 := pyEndsWith_suffix _ _ hends
    exact (h1.isInfix).trans (h2.isInfix.trans hstrip)

/-! ## Claim C2 -/

/-- Counterexample for C2 as stated: the rows `{A: 1, B: 2}` and
`{B: 2, A: 1}` have no id-like column and identical sorted field lists,
yet their dedup keys are `"1"` and `"2"` — the key is the first column's
stringified value (detection falls back to the first column), not a hash
of the sorted field list. -/
theorem C2_stable_id_counterexample :
    sortedItemsStr [("A", PBValue.vInt 1), ("B", PBValue.vInt 2)] =
      sortedItemsStr [("B", PBValue.vInt 2), ("A", PBValue.vInt 1)]
    ∧ detect_id_field [("A", PBValue.vInt 1), ("B", PBValue.vInt 2)] = some "A"
    ∧ get_record_id [("A", PBValue.vInt 1), ("B", PBValue.vInt 2)]
        (detect_id_field [("A", PBValue.vInt 1), ("B", PBValue.vInt 2)]) = "1"
    ∧ get_record_id [("B", PBValue.vInt 2), ("A", PBValue.vInt 1)]
        (detect_id_field [("B", PBValue.vInt 2), ("A", PBValue.vInt 1)]) = "2"
    ∧ get_record_id [("A", PBValue.vInt 1), ("B", PBValue.vInt 2)]
        (detect_id_field [("A", PBValue.vInt 1), ("B", PBValue.vInt 2)]) ≠
      get_record_id [("B", PBValue.vInt 2), ("A", PBValue.vInt 1)]
        (detect_id_field [("B", PBValue.vInt 2), ("A", PBValue.vInt 1)]) := by
  refine ⟨by decide, by decide, by decide, by decide, by decide⟩

/-- Claim C2 (amended): the key column is chosen by preferring an exact
(case-insensitive, bracket-stripped) match on `id`, then a
bracket-stripped name ending in `_id` (or `id_`), then any name
containing `id`; a row with no id-like column falls back to the *first
column*, so its dedup key is that column's stringified value; the MD5
hash of the stringified sorted field list is used only when there is no
column at all or the detected column's value is absent or falsy, and is
reproducible for identical sorted content.  `[Name, ProductId, Region]`
yields `ProductId` and `[ID, Name]` yields `ID`. -/
theorem C2_stable_id_detection (row row2 : PBRow) (f : String)
    (v : PBValue) :
    detect_id_field [("Name", PBValue.vStr "x"), ("ProductId", PBValue.vInt 5),
      ("Region", PBValue.vStr "r")] = some "ProductId"
    ∧ detect_id_field [("ID", PBValue.vInt 7), ("Name", PBValue.vStr "x")] =
        some "ID"
    ∧ (row ≠ [] →
       (∀ k ∈ row.map Prod.fst, pyContains (pyLower k) "id" = false) →
       detect_id_field row = (row.map Prod.fst).head?)
    ∧ (f ≠ "" → rowGet row f = some v → v.pyTruthy = true →
       get_record_id row (some f) = v.pyStr)
    ∧ (f ≠ "" → rowGet row f = some v → v.pyTruthy = false →
       get_record_id row (some f) = md5hex (sortedItemsStr row))
    ∧ (rowGet row f = none →
       get_record_id row (some f) = md5hex (sortedItemsStr row))
    ∧ get_record_id row none = md5hex (sortedItemsStr row)
    ∧ (sortedItemsStr row = sortedItemsStr row2 →
       get_record_id row none = get_record_id row2 none) := by
  refine ⟨by decide, by decide, ?_, ?_, ?_, ?_, rfl, ?_⟩
  · intro hrow hnone
    unfold detect_id_field
    rw [if_neg hrow]
    have h1 : (row.map Prod.fst).find?
        (fun k => pyStrip ['[', ']'] (pyLower k) = "id") = none := by
      apply List.find?_eq_none.mpr
      intro k hk
      simp only [decide_eq_true_eq]
      exact (no_id_scans_fail k (hnone k hk)).1
    have h2 : (row.map Prod.fst).find? (fun k =>
        pyEndsWith (pyStrip ['[', ']'] (pyLower k)) "_id" ||
        pyEndsWith (pyStrip ['[', ']'] (pyLower k)) "id_") = none := by
      apply List.find?_eq_none.mpr
      intro k hk
      simp only [Bool.or_eq_true, not_or]
      exact ⟨fun h => (no_id_scans_fail k (hnone k hk)).2.1 h,
        fun h => (no_id_scans_fail k (hnone k hk)).2.2 h⟩
    have h3 : (row.map Prod.fst).find?
        (fun k => pyContains (pyLower k) "id") = none := by
      apply List.find?_eq_none.mpr
      intro k hk
      simp [hnone k hk]
    simp only [h1, h2, h3]
  · intro hf hget htruthy
    simp [get_record_id, hf, hget, htruthy]
  · intro hf hget hfalsy
    simp [get_record_id, hf, hget, hfalsy]
  · intro hget
    by_cases hf : f = ""
    · simp [get_record_id, hf]
    · simp [get_record_id, hf, hget]
  · intro heq
    simp [get_record_id, heq]

/-- Witness for C2: the no-id-like-column row `{A: 1, B: 2}` falls back
to its first column `A`, and the truthy `ID` value `7` becomes the dedup
key `"7"`. -/
theorem C2_stable_id_detection_witness :
    detect_id_field [("A", PBValue.vInt 1), ("B", PBValue.vInt 2)] = some "A"
    ∧ get_record_id [("ID", PBValue.vInt 7), ("Name", PBValue.vStr "x")]
        (some "ID") = "7" := by
  constructor
  · have h := (C2_stable_id_detection
      [("A", PBValue.vInt 1), ("B", PBValue.vInt 2)]
      [] "" PBValue.vNull).2.2.1 (by decide) (by decide)
    exact h.trans (by decide)
  · have h := (C2_stable_id_detection
      [("ID", PBValue.vInt 7), ("Name", PBValue.vStr "x")]
      [] "ID" (PBValue.vInt 7)).2.2.2.1 (by decide) (by decide) (by decide)
    exact h.trans (by decide)

/-! ## Non-emptiness facts (for claim C10) -/

lemma foldl_append_length : ∀ (l : List String) (acc : String),
    acc.length ≤ (l.foldl (fun r s => r ++ s) acc).length := by
  intro l
  induction l with
  | nil => intro acc; exact Nat.le_refl _
  | cons a t ih =>
    intro acc
    calc acc.length ≤ (acc ++ a).length := by
          rw [String.length_append]; omega
      _ ≤ _ := ih (acc ++ a)

lemma join_map_md5hex_ne_empty (x : Nat) (rest : List Nat) :
    String.join ((x :: rest).map md5ByteToHex) ≠ "" := by
  intro h
  have h1 : String.join ((x :: rest).map md5ByteToHex) =
      (rest.map md5ByteToHex).foldl (fun r s => r ++ s) ("" ++ md5ByteToHex x) :=
    rfl
  have h2 := foldl_append_length (rest.map md5ByteToHex) ("" ++ md5ByteToHex x)
  rw [← h1, h] at h2
  have h3 : ("" ++ md5ByteToHex x).length = 2 := by
    rw [String.length_append]
    rfl
  rw [h3] at h2
  simp at h2

lemma md5hex_ne_empty (s : String) : md5hex s ≠ "" := by
  unfold md5hex
  exact join_map_md5hex_ne_empty _ _

lemma toDigitsCore_length_ge (b : Nat) :
    ∀ (f n : Nat) (l : List Char),
      l.length ≤ (Nat.toDigitsCore b f n l).length := by
  intro f
  induction f with
  | zero => intro n l; exact Nat.le_refl _
  | succ f ih =>
    intro n l
    show l.length ≤ (if n / b = 0 then (n % b).digitChar :: l
      else Nat.toDigitsCore b f (n / b) ((n % b).digitChar :: l)).length
    by_cases h : n / b = 0
    · rw [if_pos h]
      simp
    · rw [if_neg h]
      calc l.length ≤ ((n % b).digitChar :: l).length := by simp
        _ ≤ _ := ih (n / b) ((n % b).digitChar :: l)

lemma natRepr_length_pos (n : Nat) : 0 < (Nat.repr n).length := by
  show 0 < (Nat.toDigits 10 n).asString.length
  show 0 < (Nat.toDigitsCore 10 (n + 1) n []).length
  have hstep : Nat.toDigitsCore 10 (n + 1) n [] =
      (if n / 10 = 0 then [(n % 10).digitChar]
       else Nat.toDigitsCore 10 n (n / 10) [(n % 10).digitChar]) := rfl
  rw [hstep]
  by_cases h : n / 10 = 0
  · rw [if_pos h]
    simp
  · rw [if_neg h]
    calc 0 < ([(n % 10).digitChar] : List Char).length := by simp
      _ ≤ _ := toDigitsCore_length_ge 10 n (n / 10) [(n % 10).digitChar]

lemma string_ne_empty_of_length_pos {s : String} (h : 0 < s.length) :
    s ≠ "" := by
  intro he
  rw [he] at h
  simp at h

lemma natRepr_ne_empty (n : Nat) : Nat.repr n ≠ "" :=
  string_ne_empty_of_length_pos (natRepr_length_pos n)

lemma intToString_ne_empty (i : Int) : toString i ≠ "" := by
  cases i with
  | ofNat m =>
    show Nat.repr m ≠ ""
    exact natRepr_ne_empty m
  | negSucc m =>
    show ("-" ++ Nat.repr (m + 1)) ≠ ""
    apply string_ne_empty_of_length_pos
    rw [String.length_append]
    have : ("-" : String).length = 1 := rfl
    omega

lemma pyStr_ne_empty_of_truthy (v : PBValue) (h : v.pyTruthy = true) :
    v.pyStr ≠ "" := by
  cases v with
  | vStr s =>
    simp only [PBValue.pyTruthy, ne_eq, decide_eq_true_eq] at h
    exact h
  | vInt n => exact intToString_ne_empty n
  | vBool b =>
    cases b with
    | false => cases h
    | true => exact by decide
  | vNull => cases h

lemma get_record_id_ne_empty (row : PBRow) (id_field : Option String) :
    get_record_id row id_field ≠ "" := by
  unfold get_record_id
  cases id_field with
  | none => exact md5hex_ne_empty _
  | some f =>
    dsimp only
    by_cases hf : f = ""
    · rw [if_pos hf]
      exact md5hex_ne_empty _
    · rw [if_neg hf]
      cases hget : rowGet row f with
      | none => exact md5hex_ne_empty _
      | some v =>
        dsimp only
        by_cases htruthy : v.pyTruthy = true
        · rw [if_pos htruthy]
          exact pyStr_ne_empty_of_truthy v htruthy
        · rw [if_neg htruthy]
          exact md5hex_ne_empty _

/-! ## Claim C10 -/

/-- Claim C10: `_get_record_id` is total and never returns an empty
string — the detected field's stringified value when present and truthy
(truthy values stringify non-empty), otherwise the 32-character MD5 hex
digest — so the `if not record_id` skip branch of
`_process_alert_definition` is unreachable: the row-loop step behaves
exactly as if that guard were absent, and every fetched row receives a
dedup key. -/
theorem C10_record_id_total (row : PBRow) (id_field : Option String)
    (existing : List String) (acc : PBIState) :
    get_record_id row id_field ≠ ""
    ∧ pbi_row_step id_field existing acc row =
        (if existing.contains (get_record_id row id_field) then acc
         else if acc.instanceIds.contains (get_record_id row id_field) then acc
         else { instanceIds := acc.instanceIds ++ [get_record_id row id_field],
                dispatched := acc.dispatched ++ [get_record_id row id_field] }) := by
  have hne := get_record_id_ne_empty row id_field
  refine ⟨hne, ?_⟩
  unfold pbi_row_step
  rw [if_neg hne]

/-! ## Fold lemmas for the dedup state machines (claim C1) -/

lemma find?_updateFirst {α : Type} (p : α → Bool) (f : α → α)
    (hpf : ∀ a, p a = true → p (f a) = true) :
    ∀ l : List α, (updateFirst p f l).find? p = (l.find? p).map f := by
  intro l
  induction l with
  | nil => rfl
  | cons a as ih =>
    unfold updateFirst
    by_cases hpa : p a
    · rw [if_pos hpa]
      rw [List.find?_cons_of_pos _ (hpf a hpa), List.find?_cons_of_pos _ hpa]
      rfl
    · rw [if_neg hpa]
      rw [List.find?_cons_of_neg _ hpa, List.find?_cons_of_neg _ hpa]
      exact ih

lemma updateFirst_used_preserved (p : RegCode → Bool) (ch : TgChat) :
    ∀ (l : List RegCode) (c : RegCode), c ∈ l → c.is_used = true →
      ∃ c2 ∈ updateFirst p (markCodeUsed ch) l,
        c2.code = c.code ∧ c2.is_used = true := by
  intro l
  induction l with
  | nil => intro c hc _; cases hc
  | cons a as ih =>
    intro c hc hcu
    unfold updateFirst
    rcases List.mem_cons.mp hc with rfl | hc2
    · by_cases hpa : p c
      · rw [if_pos hpa]
        exact ⟨markCodeUsed ch c, List.mem_cons_self _ _, rfl, rfl⟩
      · rw [if_neg hpa]
        exact ⟨c, List.mem_cons_self _ _, rfl, hcu⟩
    · by_cases hpa : p a
      · rw [if_pos hpa]
        exact ⟨c, List.mem_cons_of_mem _ hc2, rfl, hcu⟩
      · rw [if_neg hpa]
        rcases ih c hc2 hcu with ⟨c2, hm, hcode, hu⟩
        exact ⟨c2, List.mem_cons_of_mem _ hm, hcode, hu⟩

lemma register_of_used (st : RegState) (code_str : String) (cd : ChatData)
    (rc : RegCode)
    (hfind : st.codes.find?
      (fun c => c.code = pyUpper (pyStripWs code_str)) = some rc)
    (hused : rc.is_used = true) :
    register_chat_with_code st code_str cd =
      (⟨false,
        "❌ Este código ya fue usado" ++
          (match rc.used_by_chat with
           | some ch => " por el chat \"" ++ ch.name ++ "\""
           | none => ""),
        some "CODE_ALREADY_USED"⟩, st) := by
  unfold register_chat_with_code
  dsimp only
  rw [hfind]
  dsimp only
  rw [if_pos hused]

lemma register_codes_shape (st : RegState) (code_str : String)
    (cd : ChatData) :
    ((register_chat_with_code st code_str cd).1.success = false
      ∧ (register_chat_with_code st code_str cd).2 = st)
    ∨ ∃ ch, (register_chat_with_code st code_str cd).2.codes =
        updateFirst (fun c => c.code = pyUpper (pyStripWs code_str))
          (markCodeUsed ch) st.codes := by
  unfold register_chat_with_code
  dsimp only
  cases hfind : st.codes.find?
      (fun c => decide (c.code = pyUpper (pyStripWs code_str))) with
  | none => exact Or.inl ⟨rfl, rfl⟩
  | some rc =>
    dsimp only
    by_cases hused : rc.is_used = true
    · rw [if_pos hused]
      exact Or.inl ⟨rfl, rfl⟩
    · rw [if_neg hused]
      by_cases hexp : rc.is_expired st.now = true
      · rw [if_pos hexp]
        exact Or.inl ⟨rfl, rfl⟩
      · rw [if_neg hexp]
        cases hsame : st.chats.find?
            (fun ch => ch.chat_id = cd.chat_id && ch.company = rc.company) with
        | some ex => exact Or.inl ⟨rfl, rfl⟩
        | none =>
          dsimp only
          cases hother : st.chats.find? (fun ch => ch.chat_id = cd.chat_id) with
          | some ex => exact Or.inl ⟨rfl, rfl⟩
          | none =>
            dsimp only
            by_cases hbot : (!st.activeBot) = true
            · rw [if_pos hbot]
              exact Or.inl ⟨rfl, rfl⟩
            · rw [if_neg hbot]
              exact Or.inr ⟨⟨cd.chat_id, rc.company,
                if cd.title ≠ "" then cd.title
                else if cd.username ≠ "" then "@" ++ cd.username
                else "Chat " ++ toString cd.chat_id⟩, rfl⟩

lemma register_success_codes (st : RegState) (code_str : String)
    (cd : ChatData)
    (h : (register_chat_with_code st code_str cd).1.success = true) :
    ∃ rc ch,
      st.codes.find?
        (fun c => c.code = pyUpper (pyStripWs code_str)) = some rc
      ∧ (register_chat_with_code st code_str cd).2.codes =
          updateFirst (fun c => c.code = pyUpper (pyStripWs code_str))
            (markCodeUsed ch) st.codes := by
  unfold register_chat_with_code at h ⊢
  dsimp only at h ⊢
  cases hfind : st.codes.find?
      (fun c => decide (c.code = pyUpper (pyStripWs code_str))) with
  | none =>
    rw [hfind] at h
    cases h
  | some rc =>
    rw [hfind] at h
    dsimp only at h ⊢
    by_cases hused : rc.is_used = true
    · rw [if_pos hused] at h
      cases h
    · rw [if_neg hused] at h ⊢
      by_cases hexp : rc.is_expired st.now = true
      · rw [if_pos hexp] at h
        cases h
      · rw [if_neg hexp] at h ⊢
        cases hsame : st.chats.find?
            (fun ch => ch.chat_id = cd.chat_id && ch.company = rc.company) with
        | some ex =>
          rw [hsame] at h
          cases h
        | none =>
          rw [hsame] at h
          dsimp only at h ⊢
          cases hother : st.chats.find?
              (fun ch => ch.chat_id = cd.chat_id) with
          | some ex =>
            rw [hother] at h
            cases h
          | none =>
            rw [hother] at h
            dsimp only at h ⊢
            by_cases hbot : (!st.activeBot) = true
            · rw [if_pos hbot] at h
              cases h
            · rw [if_neg hbot] at h ⊢
              exact ⟨rc, ⟨cd.chat_id, rc.company,
                if cd.title ≠ "" then cd.title
                else if cd.username ≠ "" then "@" ++ cd.username
                else "Chat " ++ toString cd.chat_id⟩, rfl, rfl⟩

/-! ## Claim C7 -/

/-- Claim C7: a consumed registration code is permanently `is_used` and
linked to the consuming Destination, so any later `/register` with the
same code — whatever the inbound channel — is rejected with the
used-code error and changes nothing (in particular it creates no second
Destination); and a register call never un-uses any code (the used state
is terminal). -/
theorem C7_registration_single_use (st : RegState) (code_str : String)
    (cd cd2 : ChatData) :
    ((register_chat_with_code st code_str cd).1.success = true →
      ((register_chat_with_code (register_chat_with_code st code_str cd).2
          code_str cd2).1.error_code = some "CODE_ALREADY_USED"
      ∧ (register_chat_with_code (register_chat_with_code st code_str cd).2
          code_str cd2).2 = (register_chat_with_code st code_str cd).2))
    ∧ (∀ c ∈ st.codes, c.is_used = true →
        ∃ c2 ∈ (register_chat_with_code st code_str cd).2.codes,
          c2.code = c.code ∧ c2.is_used = true) := by
  constructor
  · intro hsuccess
    rcases register_success_codes st code_str cd hsuccess with
      ⟨rc, ch, hfind, hcodes⟩
    have hfind2 : (register_chat_with_code st code_str cd).2.codes.find?
        (fun c => c.code = pyUpper (pyStripWs code_str)) =
        some (markCodeUsed ch rc) := by
      have hpf : ∀ a : RegCode,
          decide (a.code = pyUpper (pyStripWs code_str)) = true →
          decide ((markCodeUsed ch a).code = pyUpper (pyStripWs code_str)) =
            true := fun a ha => ha
      rw [hcodes]
      rw [find?_updateFirst (fun c => c.code = pyUpper (pyStripWs code_str))
        (markCodeUsed ch) hpf st.codes]
      rw [hfind]
      rfl
    have heq := register_of_used (register_chat_with_code st code_str cd).2
      code_str cd2 (markCodeUsed ch rc) hfind2 rfl
    rw [heq]
    exact ⟨rfl, rfl⟩
  · intro c hc hcu
    rcases register_codes_shape st code_str cd with ⟨_, hst⟩ | ⟨ch, hcodes⟩
    · rw [hst]
      exact ⟨c, hc, rfl, hcu⟩
    · rw [hcodes]
      exact updateFirst_used_preserved _ ch st.codes c hc hcu

/-- Witness for C7: an active unexpired code registers a chat; a second
`/register` with the same code from a different channel is rejected as
already used. -/
theorem C7_registration_single_use_witness :
    (register_chat_with_code
      (register_chat_with_code
        ⟨[⟨"ABCD1234", "acme", none, some 100, false, none⟩], [], [], true, 50⟩
        "abcd1234" ⟨10, "private", "", "Ventas"⟩).2
      "abcd1234" ⟨99, "group", "u", "Grupo"⟩).1.error_code =
      some "CODE_ALREADY_USED" :=
  ((C7_registration_single_use
      ⟨[⟨"ABCD1234", "acme", none, some 100, false, none⟩], [], [], true, 50⟩
      "abcd1234" ⟨10, "private", "", "Ventas"⟩
      ⟨99, "group", "u", "Grupo"⟩).1 (by decide)).1

/-! ## Claim C8 -/

/-- Counterexample for C8 as stated: a mailbox `process_emails` run with
an empty batch writes no run-log record at all (the claim requires one
record per invocation), and the metric-query global log reports `info` —
not `warning` or `error` — when zero definitions were processed even
though per-definition errors occurred. -/
theorem C8_run_log_counterexample :
    imap_process_emails_logs [] false = []
    ∧ pbi_global_log_status 0 ["AlertaX: boom"] = "info" := by
  refine ⟨rfl, by decide⟩

/-- Claim C8 (amended): a mailbox run that raises logs one `error`
record (also on connection failure); a mailbox run over a non-empty
batch logs exactly one record — `warning` if any per-email failure
occurred, else `success` — while an empty batch logs nothing; a
metric-query definition run logs `error` when it raised, else `warning`
when any alert failed, else `success`; the metric-query global run logs
`info` whenever zero definitions were processed (even with errors), else
`warning` when errors occurred, else `success`. -/
theorem C8_run_log_status (fetched : List Bool) (e : List String)
    (n : Nat) (run_exc : Bool) :
    imap_process_emails_logs fetched true = ["error"]
    ∧ (fetched ≠ [] → imap_process_emails_logs fetched false =
        [if (fetched.filter (fun b => !b)).length = 0 then "success"
         else "warning"])
    ∧ imap_process_emails_logs [] false = []
    ∧ imap_invocation_logs false fetched run_exc = ["error"]
    ∧ (imap_invocation_logs true fetched run_exc =
        imap_process_emails_logs fetched run_exc)
    ∧ pbi_definition_log_status n true = "error"
    ∧ (0 < n → pbi_definition_log_status n false = "warning")
    ∧ pbi_definition_log_status 0 false = "success"
    ∧ pbi_global_log_status 0 e = "info"
    ∧ (0 < n → e ≠ [] → pbi_global_log_status n e = "warning")
    ∧ (0 < n → pbi_global_log_status n [] = "success") := by
  refine ⟨rfl, ?_, rfl, rfl, rfl, rfl, ?_, rfl, ?_, ?_, ?_⟩
  · intro hne
    unfold imap_process_emails_logs
    rw [if_neg (by simp), if_neg hne]
  · intro hn
    unfold pbi_definition_log_status
    rw [if_neg (by simp), if_pos hn]
  · unfold pbi_global_log_status
    rw [if_pos rfl]
  · intro hn he
    unfold pbi_global_log_status
    rw [if_neg (by omega), if_pos he]
  · intro hn
    unfold pbi_global_log_status
    rw [if_neg (by omega)]
    simp

/-- Witness for C8: a two-email batch with one failure logs exactly one
`warning` record, and a global run with two definitions processed and no
errors logs `success`. -/
theorem C8_run_log_status_witness :
    imap_process_emails_logs [true, false] false = ["warning"]
    ∧ pbi_global_log_status 2 [] = "success" := by
  have h := C8_run_log_status [true, false] [] 2 false
  exact ⟨(h.2.1 (by decide)).trans (by decide),
    h.2.2.2.2.2.2.2.2.2.2 (by decide)⟩
